import Mathlib

/-! # SPV wallet message handlers

A shallow embedding of the inbound message handlers of `spvwallet/spvwallet.go`
(`OnMerkleBlock`, `OnTxn`, `OnNotFound`).

The handlers are methods of `SPVWallet`, which embeds the sync manager and holds
the chain.  Their bodies are in the source; the methods they call on the chain,
the sync manager, the memory cache and the peer manager are not, so those
methods are the fields of `Collaborators`, and every theorem holds for every
choice of them.  A handler run threads the wallet state explicitly and records
each collaborator call, in program order and with the value it returned, in a
call log.  Getters only read the wallet state, so two calls of the same getter
with no state-changing call between them return the same value.  Log output
(`log.Trace`, `log.Debug`, `log.Error`) is not part of the wallet state and is
left out.
-/

namespace SPVWallet

/-- A 256 bit hash value (`Uint256`); the handlers only compare hashes. -/
abbrev Uint256 := Nat

/-- A Go `error` value, identified with its message; `nil` is `none` of `Option GoError`. -/
abbrev GoError := String

/-- A block header: the `Previous` hash the handlers read, and the remaining fields. -/
structure Header where
  Previous : Uint256
  fields : Nat
deriving DecidableEq, Repr

/-- The merkle block message `bloom.MerkleBlock`: a header and the merkle proof data. -/
structure MerkleBlock where
  BlockHeader : Header
  proof : List Uint256
deriving DecidableEq, Repr

/-- A transaction (`tx.Transaction`), opaque to the handlers. -/
structure Transaction where
  payload : Nat
deriving DecidableEq, Repr

/-- The transaction message `msg.Txn`. -/
structure Txn where
  Transaction : Transaction
deriving DecidableEq, Repr

/-- The not-found message `msg.NotFound`. -/
structure NotFound where
  Hash : Uint256
deriving DecidableEq, Repr

/-- A peer (`p2p.Peer`); `ID()` returns its `uint64` identifier. -/
structure Peer where
  id : Nat
deriving DecidableEq, Repr

/-- The method `peer.ID()`. -/
def Peer.ID (p : Peer) : Nat := p.id % 2 ^ 64

/-- The wallet state.  `startHash`, `stopHash` and `blockLocator` are the sync manager
fields that the handlers read or assign directly (`nil` is `none`); `rest` is everything
else the wallet, its sync manager, chain, memory cache and peer manager hold. -/
structure Wallet (ρ : Type) where
  startHash : Option Uint256
  stopHash : Option Uint256
  blockLocator : Option (List Uint256)
  rest : ρ

/-- One collaborator call made by a handler: the method, its arguments and, for a
method that returns something, the value it returned. -/
inductive Call where
  | dataLockLock
  | dataLockUnlock
  | IsKnownBlock (hash : Uint256) (result : Bool)
  | CheckProofOfWork (header : Header) (err : Option GoError)
  | IsSyncing (result : Bool)
  | InRequestQueue (hash : Uint256) (result : Bool)
  | AddOrphanBlock (hash : Uint256) (block : MerkleBlock)
  | AddOrphanTxn (hash : Uint256) (txn : Txn)
  | ChainTip (result : Header)
  | GetSyncPeer (result : Option Peer)
  | ChangeSyncPeerAndRestart
  | BlockReceived (hash : Uint256) (block : MerkleBlock)
  | RequestBlockTxns (peer : Peer) (block : MerkleBlock) (err : Option GoError)
  | TxCached (hash : Uint256) (result : Bool)
  | CommitUnconfirmedTxn (txn : Transaction) (result : Bool × Option GoError)
  | handleFPositive (amount : Nat)
  | TxnReceived (hash : Uint256) (txn : Txn)
  | RequestFinished (result : Bool)
  | CommitData (err : Option GoError)
  | startSync
deriving DecidableEq, Repr

/-- The methods the handlers call and whose bodies are outside the handlers.  Getters
read the wallet state; the other methods return the new wallet state (together with
their Go result, if any). -/
structure Collaborators (ρ : Type) where
  /-- The method `Hash()` of a header. -/
  HeaderHash : Header → Uint256
  /-- The method `Hash()` of a transaction. -/
  TxHash : Transaction → Uint256
  /-- The method `String()` of a hash. -/
  HashString : Uint256 → String
  /-- Chain: `IsKnownBlock(hash) bool`. -/
  IsKnownBlock : Wallet ρ → Uint256 → Bool
  /-- Chain: `CheckProofOfWork(header) error`. -/
  CheckProofOfWork : Wallet ρ → Header → Option GoError
  /-- Chain: `IsSyncing() bool`. -/
  IsSyncing : Wallet ρ → Bool
  /-- Chain: `ChainTip()`, the header of the current tip. -/
  ChainTip : Wallet ρ → Header
  /-- Chain: `CommitUnconfirmedTxn(tx) (bool, error)`. -/
  CommitUnconfirmedTxn : Wallet ρ → Transaction → (Bool × Option GoError) × Wallet ρ
  /-- Sync manager: `InRequestQueue(hash) bool`. -/
  InRequestQueue : Wallet ρ → Uint256 → Bool
  /-- Sync manager: `AddOrphanBlock(hash, block)`. -/
  AddOrphanBlock : Wallet ρ → Uint256 → MerkleBlock → Wallet ρ
  /-- Sync manager: `AddOrphanTxn(hash, txn)`. -/
  AddOrphanTxn : Wallet ρ → Uint256 → Txn → Wallet ρ
  /-- Sync manager: `BlockReceived(hash, block)`. -/
  BlockReceived : Wallet ρ → Uint256 → MerkleBlock → Wallet ρ
  /-- Sync manager: `RequestBlockTxns(peer, block) error`. -/
  RequestBlockTxns : Wallet ρ → Peer → MerkleBlock → Option GoError × Wallet ρ
  /-- Sync manager: `ChangeSyncPeerAndRestart()`. -/
  ChangeSyncPeerAndRestart : Wallet ρ → Wallet ρ
  /-- Sync manager: `TxnReceived(hash, txn)`. -/
  TxnReceived : Wallet ρ → Uint256 → Txn → Wallet ρ
  /-- Sync manager: `RequestFinished() bool`. -/
  RequestFinished : Wallet ρ → Bool
  /-- Sync manager: `CommitData() error`. -/
  CommitData : Wallet ρ → Option GoError × Wallet ρ
  /-- Sync manager: `startSync()`. -/
  startSync : Wallet ρ → Wallet ρ
  /-- Sync manager: `handleFPositive(amount)`. -/
  handleFPositive : Wallet ρ → Nat → Wallet ρ
  /-- Memory cache: `TxCached(hash) bool`. -/
  TxCached : Wallet ρ → Uint256 → Bool
  /-- Peer manager: `GetSyncPeer()`, `nil` when no sync peer is set. -/
  GetSyncPeer : Wallet ρ → Option Peer

/-- The state of a handler run: the wallet and the calls made so far. -/
structure Session (ρ : Type) where
  wallet : Wallet ρ
  calls : List Call

/-- A handler computation: a state transformer over `Session`. -/
def Handler (ρ : Type) (α : Type) : Type := Session ρ → α × Session ρ

instance (ρ : Type) : Monad (Handler ρ) where
  pure a := fun s => (a, s)
  bind m f := fun s => f (m s).1 (m s).2

/-- Read the wallet state. -/
def getWallet {ρ : Type} : Handler ρ (Wallet ρ) := fun s => (s.wallet, s)

/-- Assign the wallet state (used for the direct field assignments). -/
def setWallet {ρ : Type} (w : Wallet ρ) : Handler ρ Unit :=
  fun s => ((), { s with wallet := w })

/-- Call a getter: return what it reads from the wallet, log the call with that value. -/
def query {ρ α : Type} (c : α → Call) (f : Wallet ρ → α) : Handler ρ α :=
  fun s => (f s.wallet, { s with calls := s.calls ++ [c (f s.wallet)] })

/-- Call a method without result: log the call, update the wallet. -/
def command {ρ : Type} (c : Call) (f : Wallet ρ → Wallet ρ) : Handler ρ Unit :=
  fun s => ((), { wallet := f s.wallet, calls := s.calls ++ [c] })

/-- Call a method with a result: update the wallet, return the result, log the call
with that result. -/
def invoke {ρ α : Type} (c : α → Call) (f : Wallet ρ → α × Wallet ρ) : Handler ρ α :=
  fun s => ((f s.wallet).1, { wallet := (f s.wallet).2, calls := s.calls ++ [c (f s.wallet).1] })

/-- The pattern `dataLock.Lock(); defer dataLock.Unlock()` around a handler body. -/
def withDataLock {ρ α : Type} (body : Handler ρ α) : Handler ρ α := do
  command Call.dataLockLock id
  let r ← body
  command Call.dataLockUnlock id
  pure r

/-- What a handler call leaves behind: the returned error (`none` is `nil`), the
wallet state and the log of collaborator calls. -/
structure Outcome (ρ : Type) where
  err : Option GoError
  wallet : Wallet ρ
  calls : List Call

/-- Run a handler on a wallet state with an empty call log. -/
def Handler.run {ρ : Type} (h : Handler ρ (Option GoError)) (w : Wallet ρ) : Outcome ρ :=
  { err := (h { wallet := w, calls := [] }).1
    wallet := (h { wallet := w, calls := [] }).2.wallet
    calls := (h { wallet := w, calls := [] }).2.calls }

/-- The condition
`wallet.blockLocator == nil || wallet.PeerManager().GetSyncPeer() == nil ||
 wallet.PeerManager().GetSyncPeer().ID() != peer.ID()`,
evaluated left to right with short circuit.  `GetSyncPeer` is called a second time for the
ID comparison; it reads the same state as the first call, so its `none` branch is never
taken. -/
def notFromSyncPeer {ρ : Type} (env : Collaborators ρ) (peer : Peer) : Handler ρ Bool := do
  let w ← getWallet
  if w.blockLocator.isNone then
    pure true
  else
    match ← query Call.GetSyncPeer env.GetSyncPeer with
    | none => pure true
    | some _ =>
      match ← query Call.GetSyncPeer env.GetSyncPeer with
      | none => pure true
      | some syncPeer => pure (syncPeer.ID != peer.ID)

/-- The condition `wallet.chain.IsSyncing() && !wallet.InRequestQueue(hash)`, evaluated
left to right with short circuit. -/
def syncingAndNotRequested {ρ : Type} (env : Collaborators ρ) (hash : Uint256) :
    Handler ρ Bool := do
  if ← query Call.IsSyncing env.IsSyncing then
    let requested ← query (Call.InRequestQueue hash) (fun w => env.InRequestQueue w hash)
    pure (!requested)
  else
    pure false

/-- The body of `SPVWallet.OnMerkleBlock`, run while the data lock is held. -/
def OnMerkleBlock.body {ρ : Type} (env : Collaborators ρ) (peer : Peer) (block : MerkleBlock) :
    Handler ρ (Option GoError) := do
  let blockHash := env.HeaderHash block.BlockHeader
  if ← query (Call.IsKnownBlock blockHash) (fun w => env.IsKnownBlock w blockHash) then
    return some ("Received block that already known," ++ env.HashString blockHash)
  let err ← query (Call.CheckProofOfWork block.BlockHeader)
    (fun w => env.CheckProofOfWork w block.BlockHeader)
  if err.isSome then
    return err
  if ← syncingAndNotRequested env blockHash then
    -- Put non syncing blocks into orphan pool
    command (Call.AddOrphanBlock blockHash block) (fun w => env.AddOrphanBlock w blockHash block)
    return none
  if !(← query Call.IsSyncing env.IsSyncing) then
    -- Check if new block can connect to previous
    let tip ← query Call.ChainTip env.ChainTip
    -- If block is already added, return
    if env.HeaderHash tip == blockHash then
      return none
    -- Meet an orphan block
    if !(env.HeaderHash tip == block.BlockHeader.Previous) then
      -- Put non syncing blocks into orphan pool
      command (Call.AddOrphanBlock blockHash block) (fun w => env.AddOrphanBlock w blockHash block)
      return none
    -- Set start hash and stop hash to the same block hash
    setWallet { (← getWallet) with startHash := some blockHash }
    setWallet { (← getWallet) with stopHash := some blockHash }
  else if ← notFromSyncPeer env peer then
    command Call.ChangeSyncPeerAndRestart env.ChangeSyncPeerAndRestart
    return some "Receive message from non sync peer, disconnect"
  -- Mark block as received
  command (Call.BlockReceived blockHash block) (fun w => env.BlockReceived w blockHash block)
  invoke (Call.RequestBlockTxns peer block) (fun w => env.RequestBlockTxns w peer block)

/-- The handler `SPVWallet.OnMerkleBlock`. -/
def OnMerkleBlock {ρ : Type} (env : Collaborators ρ) (peer : Peer) (block : MerkleBlock) :
    Handler ρ (Option GoError) :=
  withDataLock (OnMerkleBlock.body env peer block)

/-- The body of `SPVWallet.OnTxn`, run while the data lock is held. -/
def OnTxn.body {ρ : Type} (env : Collaborators ρ) (peer : Peer) (txn : Txn) :
    Handler ρ (Option GoError) := do
  let txId := env.TxHash txn.Transaction
  if ← syncingAndNotRequested env txId then
    -- Put non syncing txns into orphan pool
    command (Call.AddOrphanTxn txId txn) (fun w => env.AddOrphanTxn w txId txn)
    return none
  if !(← query Call.IsSyncing env.IsSyncing) then
    -- Check if transaction already received
    if ← query (Call.TxCached txId) (fun w => env.TxCached w txId) then
      return some "Received transaction already cached"
    -- Put txn into unconfirmed txnpool
    let (fPositive, err) ← invoke (Call.CommitUnconfirmedTxn txn.Transaction)
      (fun w => env.CommitUnconfirmedTxn w txn.Transaction)
    if err.isSome then
      return err
    if fPositive then
      command (Call.handleFPositive 1) (fun w => env.handleFPositive w 1)
  else if ← notFromSyncPeer env peer then
    command Call.ChangeSyncPeerAndRestart env.ChangeSyncPeerAndRestart
    return some "Receive message from non sync peer, disconnect"
  command (Call.TxnReceived txId txn) (fun w => env.TxnReceived w txId txn)
  -- All request finished, submit received block and txn data
  if ← query Call.RequestFinished env.RequestFinished then
    let err ← invoke Call.CommitData env.CommitData
    if err.isSome then
      return err
    -- Continue syncing
    command Call.startSync env.startSync
    return none
  return none

/-- The handler `SPVWallet.OnTxn`. -/
def OnTxn {ρ : Type} (env : Collaborators ρ) (peer : Peer) (txn : Txn) :
    Handler ρ (Option GoError) :=
  withDataLock (OnTxn.body env peer txn)

/-- The handler `SPVWallet.OnNotFound`. -/
def OnNotFound {ρ : Type} (env : Collaborators ρ) (_peer : Peer) (_msg : NotFound) :
    Handler ρ (Option GoError) := do
  command Call.ChangeSyncPeerAndRestart env.ChangeSyncPeerAndRestart
  pure none

/-! ## Concrete collaborators used to evaluate the handlers -/

/-- A small concrete rest-of-wallet state: the mode flag, the request queue, the orphan
pool, the received items, the sync peer and counters. -/
structure Sim where
  syncing : Bool
  known : List Uint256
  queue : List Uint256
  orphans : List Uint256
  received : List Uint256
  syncPeer : Option Peer
  tip : Header
  restarts : Nat
  fPositives : Nat
  committed : Nat
deriving DecidableEq, Repr

/-- Concrete collaborators over `Sim`: the hash of a header is its `fields` value, the
hash of a transaction its payload, proof of work fails exactly for `fields = 0`. -/
def simEnv : Collaborators Sim where
  HeaderHash := fun h => h.fields
  TxHash := fun t => t.payload
  HashString := fun h => toString h
  IsKnownBlock := fun w h => decide (h ∈ w.rest.known)
  CheckProofOfWork := fun _ h => if h.fields = 0 then some "invalid proof of work" else none
  IsSyncing := fun w => w.rest.syncing
  ChainTip := fun w => w.rest.tip
  CommitUnconfirmedTxn := fun w t => ((t.payload % 2 = 1, none), w)
  InRequestQueue := fun w h => decide (h ∈ w.rest.queue)
  AddOrphanBlock := fun w h _ => { w with rest := { w.rest with orphans := h :: w.rest.orphans } }
  AddOrphanTxn := fun w h _ => { w with rest := { w.rest with orphans := h :: w.rest.orphans } }
  BlockReceived := fun w h _ => { w with rest := { w.rest with received := h :: w.rest.received } }
  RequestBlockTxns := fun w _ _ => (none, w)
  ChangeSyncPeerAndRestart := fun w =>
    { w with
      blockLocator := some []
      rest := { w.rest with
                queue := []
                syncPeer := none
                restarts := w.rest.restarts + 1 } }
  TxnReceived := fun w h _ => { w with rest := { w.rest with received := h :: w.rest.received } }
  RequestFinished := fun w => w.rest.queue.all (fun h => decide (h ∈ w.rest.received))
  CommitData := fun w => (none, { w with rest := { w.rest with committed := w.rest.committed + 1 } })
  startSync := fun w => { w with blockLocator := some [] }
  handleFPositive := fun w n => { w with rest := { w.rest with fPositives := w.rest.fPositives + n } }
  TxCached := fun _ _ => false
  GetSyncPeer := fun w => w.rest.syncPeer

/-- A syncing wallet whose elected sync peer has identifier 1 and whose request queue
holds the hashes 100 and 200. -/
def simSyncing : Wallet Sim where
  startHash := none
  stopHash := none
  blockLocator := some [99]
  rest := { syncing := true, known := [99], queue := [100, 200], orphans := [], received := [],
            syncPeer := some { id := 1 }, tip := { Previous := 98, fields := 99 },
            restarts := 0, fPositives := 0, committed := 0 }

/-- The same wallet in steady state (not syncing), with tip hash 99. -/
def simSteady : Wallet Sim :=
  { simSyncing with rest := { simSyncing.rest with syncing := false, queue := [] } }

/-- The syncing wallet with only the hash 100 left in the request queue. -/
def simLastItem : Wallet Sim :=
  { simSyncing with rest := { simSyncing.rest with queue := [100] } }

/-- The syncing wallet with no block locator set. -/
def simNoLocator : Wallet Sim :=
  { simSyncing with blockLocator := none }

/-- The collaborators `simEnv`, except that the memory cache holds every transaction. -/
def simEnvCached : Collaborators Sim :=
  { simEnv with TxCached := fun _ _ => true }

/-- The collaborators `simEnv`, except that `CommitData` fails and leaves the wallet as
it is. -/
def simEnvCommitFails : Collaborators Sim :=
  { simEnv with CommitData := fun w => (some "commit failed", w) }

end SPVWallet

/-! # Sync manager configuration (`sync/config.go`) -/

namespace Sync

/-- The constant `DefaultMinPeersForSync`. -/
def DefaultMinPeersForSync : Int := 3

/-- The constant `DefaultMaxPeers`. -/
def DefaultMaxPeers : Int := 125

/-- The struct `Config`.  `χ` is the type of the chain reference
(`*blockchain.BlockChain`), `φ` the type of the filter reference (`*bloom.Filter`) that
the `UpdateFilter` callback returns. -/
structure Config (χ φ : Type) where
  Chain : χ
  MinPeersForSync : Int
  MaxPeers : Int
  UpdateFilter : Unit → φ

/-- The function `NewDefaultConfig`. -/
def NewDefaultConfig {χ φ : Type} (chain : χ) (updateFilter : Unit → φ) : Config χ φ :=
  { Chain := chain
    MinPeersForSync := DefaultMinPeersForSync
    MaxPeers := DefaultMaxPeers
    UpdateFilter := updateFilter }

end Sync

/-! # Arbiters store (`interface/store/arbiters.go`)

The store keeps, per height, the CRC and normal arbiter keys in a leveldb database.  The
database, its write batch and the digest function are library code: the content of the
database is modelled as a finite map from keys to values, a batch as the list of its
operations in order, and the digest is a parameter.  A read of the database can fail with
an error other than not-found; the keys for which it does are part of the state of the
store (`readErrors`).  Writes do not fail: the store discards their error everywhere but in
`Clear`.  The reader/writer lock of the store
is not modelled; every method runs to completion on its own.
-/

namespace Store

/-- A byte string (`[]byte`); a byte is a natural number below 256. -/
abbrev Bytes := List Nat

/-- A Go `error` value, identified with its message. -/
abbrev GoError := String

/-- The bucket `BKTArbiters = []byte("C")`. -/
def BKTArbiters : Bytes := [67]

/-- The key `BKTArbPosition = []byte("P")`. -/
def BKTArbPosition : Bytes := [80]

/-- The database `leveldb.DB`: the stored entries, at most one per key. -/
abbrev DB := List (Bytes × Bytes)

/-- The value the database holds for a key, `none` when it holds none. -/
def DB.Get : DB → Bytes → Option Bytes
  | [], _ => none
  | (k, v) :: rest, key => if k = key then some v else DB.Get rest key

/-- The effect of deleting a key. -/
def DB.Delete (db : DB) (key : Bytes) : DB :=
  db.filter (fun entry => decide (entry.1 ≠ key))

/-- The call `db.Put(key, value, nil)`. -/
def DB.Put (db : DB) (key value : Bytes) : DB :=
  (key, value) :: DB.Delete db key

/-- One record of a `leveldb.Batch`. -/
inductive BatchOp where
  | put (key value : Bytes)
  | delete (key : Bytes)
deriving DecidableEq, Repr

/-- The batch `leveldb.Batch`: its records in the order they were added. -/
abbrev Batch := List BatchOp

/-- The call `batch.Put(key, value)`. -/
def Batch.Put (b : Batch) (key value : Bytes) : Batch := b ++ [BatchOp.put key value]

/-- The call `batch.Delete(key)`. -/
def Batch.Delete (b : Batch) (key : Bytes) : Batch := b ++ [BatchOp.delete key]

/-- Apply one batch record to the database. -/
def DB.apply (db : DB) : BatchOp → DB
  | BatchOp.put key value => DB.Put db key value
  | BatchOp.delete key => DB.Delete db key

/-- The call `db.Write(batch, nil)`: the records are applied in order.  The batch itself
is left as it is (only `batch.Reset()` empties it). -/
def DB.Write (db : DB) (b : Batch) : DB := b.foldl DB.apply db

/-- The comparison `bytes.Compare(a, b) < 0`: lexicographic order on byte strings. -/
def bytesLess : Bytes → Bytes → Bool
  | [], [] => false
  | [], _ :: _ => true
  | _ :: _, [] => false
  | a :: as, b :: bs => if a < b then true else if b < a then false else bytesLess as bs

/-- Insert a byte string into an ascending list of byte strings. -/
def sortInsert (a : Bytes) : List Bytes → List Bytes
  | [] => [a]
  | b :: rest => if bytesLess b a then b :: sortInsert a rest else a :: b :: rest

/-- The result of `sort.Slice(data, func(i, j) { return bytes.Compare(data[i], data[j]) < 0 })`:
the byte strings of `data` in ascending order. -/
def sortSlice (data : List Bytes) : List Bytes := data.foldr sortInsert []

/-- The keys `db.NewIterator(dbutil.BytesPrefix(bucket), nil)` visits: the keys that start
with `bucket`, in ascending order. -/
def DB.keysInBucket (db : DB) (bucket : Bytes) : List Bytes :=
  sortSlice ((db.map Prod.fst).filter (fun key => bucket.isPrefixOf key))

/-- The digest `sha256.Sum256`, a parameter of the store; its result is a `[32]byte`. -/
structure Sha256 where
  Sum256 : Bytes → Bytes
  size : ∀ data, (Sum256 data).length = 32

/-- The function `common.Uint256FromBytes`: fails unless it is given 32 bytes. -/
def Uint256FromBytes (f : Bytes) : Except GoError Bytes :=
  if f.length ≠ 32 then Except.error "[Common]: Uint256ParseFromBytes err, len != 32"
  else Except.ok f

/-- The function `common.ReadUint8` on a buffer: the first byte, an error on an empty
buffer. -/
def ReadUint8 (buf : Bytes) : Except GoError Nat :=
  match buf with
  | [] => Except.error "EOF"
  | b :: _ => Except.ok (b % 256)

/-- The function `uint32toBytes`: the four bytes of a `uint32`, least significant first. -/
def uint32toBytes (data : Nat) : Bytes :=
  [data % 256, data / 256 % 256, data / 65536 % 256, data / 16777216 % 256]

/-- The function `bytesToUint32`: the `uint32` whose little-endian bytes are the first four
bytes of `data`.  Go panics when `data` has fewer than four bytes; the store only calls it
on values written by `uint32toBytes`, and a missing byte is read as 0 here.  Theorems
about a store that is not built from a fresh one assume `wordValues`, under which every
value read this way has four bytes. -/
def bytesToUint32 (data : Bytes) : Nat :=
  (data.getD 0 0 + 256 * data.getD 1 0 + 65536 * data.getD 2 0 + 16777216 * data.getD 3 0)
    % 4294967296

/-- Modelled from the spec: the helper `toKey(bucket, index...)` of package `store`, which
is not among the source files; a key is the bucket followed by the index bytes, which is
what `Clear` relies on when it iterates over `BytesPrefix(BKTArbiters)`. -/
def toKey (bucket : Bytes) (index : Bytes) : Bytes := bucket ++ index

/-- The function `getIndex`. -/
def getIndex (data : Nat) : Bytes := toKey BKTArbiters (uint32toBytes data)

/-- The function `getValueBytes`: the count byte followed by the keys. -/
def getValueBytes (data : List Bytes) (crclen : Nat) : Bytes :=
  (crclen % 256) :: data.flatten

/-- The cache `map[common.Uint256]uint32`: at most one entry per key. -/
abbrev Cache := List (Bytes × Nat)

/-- The lookup `val, ok := cache[key]`; `none` is `ok = false`. -/
def Cache.lookup : Cache → Bytes → Option Nat
  | [], _ => none
  | (k, v) :: rest, key => if k = key then some v else Cache.lookup rest key

/-- The assignment `cache[key] = val`. -/
def Cache.store (cache : Cache) (key : Bytes) (val : Nat) : Cache :=
  (key, val) :: cache.filter (fun entry => decide (entry.1 ≠ key))

/-- The struct `arbiters`: database, write batch and digest cache.  `readErrors` is not
a field of the Go struct: it is the part of the state of the database handle `db` that is
not its content, namely the keys whose read fails with an error other than not-found,
each with that error. -/
structure Arbiters where
  db : DB
  b : Batch
  cache : Cache
  readErrors : List (Bytes × GoError)
deriving DecidableEq, Repr

/-- The constructor `NewArbiters`, on a database handle whose reads do not fail. -/
def NewArbiters (db : DB) : Arbiters := { db := db, b := [], cache := [], readErrors := [] }

/-- What `db.Get(key, nil)` returns: a value with a `nil` error, `leveldb.ErrNotFound`, or
another error. -/
inductive ReadResult where
  | found (value : Bytes)
  | notFound
  | failed (err : GoError)
deriving DecidableEq, Repr

/-- The error with which the read of a key fails, if it does. -/
def readError : List (Bytes × GoError) → Bytes → Option GoError
  | [], _ => none
  | (k, e) :: rest, key => if k = key then some e else readError rest key

/-- The call `c.db.Get(key, nil)`. -/
def Arbiters.dbGet (c : Arbiters) (key : Bytes) : ReadResult :=
  match readError c.readErrors key with
  | some err => ReadResult.failed err
  | none =>
    match c.db.Get key with
    | some value => ReadResult.found value
    | none => ReadResult.notFound

/-- The method `getCurrentPosition`: 0 on every error of the read. -/
def Arbiters.getCurrentPosition (c : Arbiters) : Nat :=
  match c.dbGet BKTArbPosition with
  | ReadResult.found pos => bytesToUint32 pos
  | ReadResult.notFound => 0
  | ReadResult.failed _ => 0

/-- The method `batchPut`: the returned error, the store and the batch afterwards. -/
def Arbiters.batchPut (sha : Sha256) (c : Arbiters) (height : Nat)
    (crcArbiters normalArbiters : List Bytes) (batch : Batch) :
    Option GoError × Arbiters × Batch :=
  let pos := c.getCurrentPosition
  if height ≤ pos then
    (some "height must be bigger than existed position", c, batch)
  else
    let batch := batch.Put BKTArbPosition (uint32toBytes height)
    let ars := crcArbiters ++ normalArbiters
    let copyars := sortSlice ars
    let hash := sha.Sum256 (getValueBytes copyars (crcArbiters.length % 256))
    match Uint256FromBytes hash with
    | Except.error err => (some err, c, batch)
    | Except.ok key =>
      let index := getIndex height
      match c.cache.lookup key with
      | none =>
        match c.dbGet hash with
        | ReadResult.found existHeight =>
          let c := { c with cache := c.cache.store key (bytesToUint32 existHeight) }
          let c := { c with db := c.db.Put index existHeight }
          (none, c, batch)
        | ReadResult.notFound =>
          let c := { c with cache := c.cache.store key height }
          let batch := batch.Put index (getValueBytes ars (crcArbiters.length % 256))
          let batch := batch.Put hash (uint32toBytes height)
          (none, c, batch)
        | ReadResult.failed err =>
          (some err, c, batch)
      | some val =>
        let batch := batch.Put index (uint32toBytes val)
        (none, c, batch)

/-- The method `Put`: `batchPut` on the store's own batch `c.b`, then `c.db.Write(c.b, nil)`. -/
def Arbiters.Put (sha : Sha256) (c : Arbiters) (height : Nat)
    (crcArbiters normalArbiters : List Bytes) : Option GoError × Arbiters :=
  match c.batchPut sha height crcArbiters normalArbiters c.b with
  | (some err, c1, b1) => (some err, { c1 with b := b1 })
  | (none, c1, b1) =>
    let c2 := { c1 with b := b1 }
    (none, { c2 with db := c2.db.Write c2.b })

/-- What `get`, `Get` and `GetByHeight` produce: the two key lists with a `nil` error, an
error with `nil` lists, or a run-time panic. -/
inductive GetResult where
  | ok (crcArbiters normalArbiters : List Bytes)
  | err (e : GoError)
  | panic
deriving DecidableEq, Repr

/-- The first `n` rounds of the loop of `get`: round `i` cuts the 33-byte key
`val[i*33+1 : (i+1)*33+1]` out of the record and appends it to the CRC arbiters if
`i <= int(crclen-1)`, with `crclen - 1` computed in `uint8`, and to the normal arbiters
otherwise. -/
def Arbiters.get.loop (val : Bytes) (crclen : Nat) (n : Nat) : List Bytes × List Bytes :=
  (List.range n).foldl
    (fun acc i =>
      if i ≤ (crclen + 255) % 256 then
        (acc.1 ++ [(val.take ((i + 1) * 33 + 1)).drop (i * 33 + 1)], acc.2)
      else
        (acc.1, acc.2 ++ [(val.take ((i + 1) * 33 + 1)).drop (i * 33 + 1)]))
    ([], [])

/-- The loop `for i := 0; i < (len(val)-1)/33; i++` of `get`. -/
def Arbiters.get.split (val : Bytes) (crclen : Nat) : List Bytes × List Bytes :=
  Arbiters.get.loop val crclen ((val.length - 1) / 33)

/-- The part of `get` that decodes the record `val` (from `buf := new(bytes.Buffer)` on);
`val[0]` panics on an empty record. -/
def Arbiters.get.decode (val : Bytes) : GetResult :=
  match val with
  | [] => GetResult.panic
  | v0 :: _ =>
    match ReadUint8 [v0] with
    | Except.error e => GetResult.err e
    | Except.ok crclen =>
      GetResult.ok (Arbiters.get.split val crclen).1 (Arbiters.get.split val crclen).2

/-- The method `get`. -/
def Arbiters.get (c : Arbiters) (height : Nat) : GetResult :=
  match c.dbGet (getIndex height) with
  | ReadResult.failed err => GetResult.err err
  | ReadResult.notFound => GetResult.err "leveldb: not found"
  | ReadResult.found val =>
    if val.length = 4 then
      match c.dbGet (getIndex (bytesToUint32 val)) with
      | ReadResult.failed err => GetResult.err err
      | ReadResult.notFound => GetResult.err "leveldb: not found"
      | ReadResult.found val => Arbiters.get.decode val
    else
      Arbiters.get.decode val

/-- The method `Get`. -/
def Arbiters.Get (c : Arbiters) : GetResult := c.get c.getCurrentPosition

/-- The method `GetByHeight`. -/
def Arbiters.GetByHeight (c : Arbiters) (height : Nat) : GetResult := c.get height

/-- The method `Clear`: the returned error (that of `db.Write`, which is `nil`) and the
store afterwards. -/
def Arbiters.Clear (c : Arbiters) : Option GoError × Arbiters :=
  let b := (c.db.keysInBucket BKTArbiters).foldl Batch.Delete c.b
  let b := b.Delete BKTArbPosition
  (none, { c with b := b, db := c.db.Write b })

/-- Whether `key` is a key whose value the store reads with `bytesToUint32`: the position
key or a 32-byte digest. -/
def isWordKey (key : Bytes) : Bool := key == BKTArbPosition || key.length == 32

/-- Whether a database entry has a four-byte value if the store reads it with
`bytesToUint32`. -/
def wordEntry (entry : Bytes × Bytes) : Bool := !isWordKey entry.1 || entry.2.length == 4

/-- Whether a batch record puts a four-byte value if the store reads that key with
`bytesToUint32`. -/
def wordOp : BatchOp → Bool
  | BatchOp.put key value => !isWordKey key || value.length == 4
  | BatchOp.delete _ => true

/-- Whether every value that the store reads with `bytesToUint32` has four bytes, in the
database and in the pending batch; `bytesToUint32` does not panic on such a store. -/
def Arbiters.wordValues (c : Arbiters) : Bool := c.db.all wordEntry && c.b.all wordOp

/-- The digest `hash` that `batchPut` computes (line 68) for a pair of arbiter lists. -/
def arbitersDigest (sha : Sha256) (crcArbiters normalArbiters : List Bytes) : Bytes :=
  sha.Sum256 (getValueBytes (sortSlice (crcArbiters ++ normalArbiters))
    (crcArbiters.length % 256))

/-- A sequence of `Put` calls that all succeed: the store after the last one; `none` when
one of the calls returns an error. -/
def Arbiters.PutAll (sha : Sha256) (c : Arbiters) :
    List (Nat × List Bytes × List Bytes) → Option Arbiters
  | [] => some c
  | (height, crcArbiters, normalArbiters) :: rest =>
    match c.Put sha height crcArbiters normalArbiters with
    | (none, c1) => Arbiters.PutAll sha c1 rest
    | (some _, _) => none

/-! ## A concrete digest and keys used to evaluate the store -/

/-- A stand-in digest for evaluating the store: the first 32 bytes of the data, padded
with zeros. -/
def simSha : Sha256 where
  Sum256 := fun data => (data ++ List.replicate 32 0).take 32
  size := by intro data; simp

/-- Three 33-byte keys. -/
def keyA : Bytes := List.replicate 33 1
def keyB : Bytes := List.replicate 33 2
def keyC : Bytes := List.replicate 33 3

/-- A store on an empty database whose read of the digest of `[keyA], [keyB]` fails. -/
def simFaulty : Arbiters :=
  { NewArbiters [] with
    readErrors := [(simSha.Sum256 (getValueBytes (sortSlice ([keyA] ++ [keyB])) 1),
                    "leveldb: i/o error")] }

end Store

namespace SPVWallet

/-! ## Unfolding lemmas for handler computations -/

@[simp]
theorem Handler.pure_apply {ρ α : Type} (a : α) (s : Session ρ) :
    (pure a : Handler ρ α) s = (a, s) := rfl

@[simp]
theorem Handler.bind_apply {ρ α β : Type} (m : Handler ρ α) (f : α → Handler ρ β)
    (s : Session ρ) : (m >>= f) s = f (m s).1 (m s).2 := rfl

@[simp]
theorem query_apply {ρ α : Type} (c : α → Call) (f : Wallet ρ → α) (s : Session ρ) :
    query c f s = (f s.wallet, { s with calls := s.calls ++ [c (f s.wallet)] }) := rfl

@[simp]
theorem command_apply {ρ : Type} (c : Call) (f : Wallet ρ → Wallet ρ) (s : Session ρ) :
    command c f s = ((), { wallet := f s.wallet, calls := s.calls ++ [c] }) := rfl

@[simp]
theorem invoke_apply {ρ α : Type} (c : α → Call) (f : Wallet ρ → α × Wallet ρ)
    (s : Session ρ) :
    invoke c f s
      = ((f s.wallet).1, { wallet := (f s.wallet).2, calls := s.calls ++ [c (f s.wallet).1] }) :=
  rfl

@[simp]
theorem getWallet_apply {ρ : Type} (s : Session ρ) :
    (getWallet : Handler ρ (Wallet ρ)) s = (s.wallet, s) := rfl

@[simp]
theorem setWallet_apply {ρ : Type} (w : Wallet ρ) (s : Session ρ) :
    setWallet w s = ((), { s with wallet := w }) := rfl

/-! ## Not-found messages -/

/-- C1 (the code departs from the claim): for every peer, every not-found message and
every wallet state, `OnNotFound` performs the failover, its one call being
`ChangeSyncPeerAndRestart` and the wallet it leaves being the result of that call, and
then returns `nil`, not an error.  In the scenario of the specification, where the elected
sync peer 1 answers not-found for the requested hash 100 while the wallet is syncing, the
returned error is `nil`.  The two other handlers that fail over, `OnTxn` and
`OnMerkleBlock` on a requested item from peer 2, make the same call and return the error
"Receive message from non sync peer, disconnect". -/
theorem OnNotFound_fails_over_but_returns_nil {ρ : Type} (env : Collaborators ρ)
    (peer : Peer) (msg : NotFound) (w : Wallet ρ) :
    (((OnNotFound env peer msg).run w).calls = [Call.ChangeSyncPeerAndRestart] ∧
      ((OnNotFound env peer msg).run w).wallet = env.ChangeSyncPeerAndRestart w ∧
      ((OnNotFound env peer msg).run w).err = none) ∧
    (simEnv.GetSyncPeer simSyncing = some { id := 1 } ∧
      simEnv.InRequestQueue simSyncing 100 = true ∧
      ((OnNotFound simEnv { id := 1 } { Hash := 100 }).run simSyncing).calls
        = [Call.ChangeSyncPeerAndRestart] ∧
      ((OnNotFound simEnv { id := 1 } { Hash := 100 }).run simSyncing).err = none) ∧
    (Call.ChangeSyncPeerAndRestart ∈
        ((OnTxn simEnv { id := 2 } { Transaction := { payload := 100 } }).run
          simSyncing).calls ∧
      ((OnTxn simEnv { id := 2 } { Transaction := { payload := 100 } }).run simSyncing).err
        = some "Receive message from non sync peer, disconnect") ∧
    (Call.ChangeSyncPeerAndRestart ∈
        ((OnMerkleBlock simEnv { id := 2 }
          { BlockHeader := { Previous := 99, fields := 100 }, proof := [] }).run
          simSyncing).calls ∧
      ((OnMerkleBlock simEnv { id := 2 }
          { BlockHeader := { Previous := 99, fields := 100 }, proof := [] }).run
          simSyncing).err
        = some "Receive message from non sync peer, disconnect") :=
  ⟨⟨rfl, rfl, rfl⟩, ⟨rfl, by decide, rfl, rfl⟩, ⟨by decide, by decide⟩, ⟨by decide, by decide⟩⟩

/-- C2: for every peer, every not-found message and every wallet state, `OnNotFound`
invokes `ChangeSyncPeerAndRestart` exactly once, makes no other call, and the wallet
state it leaves is the one `ChangeSyncPeerAndRestart` produced. -/
theorem OnNotFound_restarts_once {ρ : Type} (env : Collaborators ρ) (peer : Peer)
    (msg : NotFound) (w : Wallet ρ) :
    ((OnNotFound env peer msg).run w).calls.count Call.ChangeSyncPeerAndRestart = 1 ∧
    ((OnNotFound env peer msg).run w).calls = [Call.ChangeSyncPeerAndRestart] ∧
    ((OnNotFound env peer msg).run w).wallet = env.ChangeSyncPeerAndRestart w := by
  refine ⟨?_, rfl, rfl⟩
  show [Call.ChangeSyncPeerAndRestart].count Call.ChangeSyncPeerAndRestart = 1
  simp

/-! ## Messages from a peer other than the sync peer -/

/-- C3 (as stated, refuted): the wallet is syncing from the elected peer 1, peer 2 sends
an unknown block with valid proof of work whose hash 101 is not in the request queue;
`OnMerkleBlock` files it as an orphan, does not invoke `ChangeSyncPeerAndRestart` and
returns `nil`. -/
theorem OnMerkleBlock_other_peer_unrequested_no_failover :
    simEnv.IsSyncing simSyncing = true ∧
    simEnv.GetSyncPeer simSyncing = some { id := 1 } ∧
    (Peer.ID { id := 1 } ≠ Peer.ID { id := 2 }) ∧
    simEnv.IsKnownBlock simSyncing 101 = false ∧
    simEnv.CheckProofOfWork simSyncing { Previous := 99, fields := 101 } = none ∧
    simEnv.InRequestQueue simSyncing 101 = false ∧
    ((OnMerkleBlock simEnv { id := 2 }
        { BlockHeader := { Previous := 99, fields := 101 }, proof := [] }).run simSyncing).err
      = none ∧
    Call.ChangeSyncPeerAndRestart ∉
      ((OnMerkleBlock simEnv { id := 2 }
        { BlockHeader := { Previous := 99, fields := 101 }, proof := [] }).run simSyncing).calls := by
  refine ⟨rfl, rfl, by decide, by decide, rfl, by decide, by decide, by decide⟩

/-- C3 (amended): while the chain is syncing, a merkle block (unknown, valid proof of
work) or a transaction from a peer whose ID differs from the elected sync peer's ID makes
the handler invoke `ChangeSyncPeerAndRestart` and return a non-nil error when its hash is
in the request queue; when the hash is not in the request queue the handler files the
item as an orphan, does not invoke `ChangeSyncPeerAndRestart` and returns `nil`. -/
theorem other_peer_failover_iff_requested {ρ : Type} (env : Collaborators ρ)
    (peer syncPeer : Peer) (block : MerkleBlock) (txn : Txn) (w : Wallet ρ)
    (hsync : env.IsSyncing w = true)
    (hpeer : env.GetSyncPeer w = some syncPeer) (hid : syncPeer.ID ≠ peer.ID)
    (hknown : env.IsKnownBlock w (env.HeaderHash block.BlockHeader) = false)
    (hpow : env.CheckProofOfWork w block.BlockHeader = none) :
    (env.InRequestQueue w (env.HeaderHash block.BlockHeader) = true →
      Call.ChangeSyncPeerAndRestart ∈ ((OnMerkleBlock env peer block).run w).calls ∧
      ((OnMerkleBlock env peer block).run w).err ≠ none) ∧
    (env.InRequestQueue w (env.HeaderHash block.BlockHeader) = false →
      Call.AddOrphanBlock (env.HeaderHash block.BlockHeader) block
        ∈ ((OnMerkleBlock env peer block).run w).calls ∧
      Call.ChangeSyncPeerAndRestart ∉ ((OnMerkleBlock env peer block).run w).calls ∧
      ((OnMerkleBlock env peer block).run w).err = none) ∧
    (env.InRequestQueue w (env.TxHash txn.Transaction) = true →
      Call.ChangeSyncPeerAndRestart ∈ ((OnTxn env peer txn).run w).calls ∧
      ((OnTxn env peer txn).run w).err ≠ none) ∧
    (env.InRequestQueue w (env.TxHash txn.Transaction) = false →
      Call.AddOrphanTxn (env.TxHash txn.Transaction) txn ∈ ((OnTxn env peer txn).run w).calls ∧
      Call.ChangeSyncPeerAndRestart ∉ ((OnTxn env peer txn).run w).calls ∧
      ((OnTxn env peer txn).run w).err = none) := by
  refine ⟨?_, ?_, ?_, ?_⟩
  · intro hreq
    cases hloc : w.blockLocator <;>
      simp [OnMerkleBlock, OnMerkleBlock.body, withDataLock, Handler.run,
        syncingAndNotRequested, notFromSyncPeer, hknown, hpow, hsync, hreq, hloc, hpeer, hid]
  · intro hreq
    simp [OnMerkleBlock, OnMerkleBlock.body, withDataLock, Handler.run,
      syncingAndNotRequested, notFromSyncPeer, hknown, hpow, hsync, hreq]
  · intro hreq
    cases hloc : w.blockLocator <;>
      simp [OnTxn, OnTxn.body, withDataLock, Handler.run,
        syncingAndNotRequested, notFromSyncPeer, hsync, hreq, hloc, hpeer, hid]
  · intro hreq
    simp [OnTxn, OnTxn.body, withDataLock, Handler.run,
      syncingAndNotRequested, notFromSyncPeer, hsync, hreq]

/-- Witness for C3 (amended): peer 2 sends the requested block 100 and the requested
transaction 100 while the wallet syncs from peer 1. -/
theorem other_peer_failover_iff_requested_witness :
    Call.ChangeSyncPeerAndRestart ∈
      ((OnMerkleBlock simEnv { id := 2 }
        { BlockHeader := { Previous := 99, fields := 100 }, proof := [] }).run simSyncing).calls ∧
    ((OnMerkleBlock simEnv { id := 2 }
        { BlockHeader := { Previous := 99, fields := 100 }, proof := [] }).run simSyncing).err
      ≠ none ∧
    Call.ChangeSyncPeerAndRestart ∈
      ((OnTxn simEnv { id := 2 } { Transaction := { payload := 100 } }).run simSyncing).calls ∧
    ((OnTxn simEnv { id := 2 } { Transaction := { payload := 100 } }).run simSyncing).err
      ≠ none :=
  have h := other_peer_failover_iff_requested simEnv { id := 2 } { id := 1 }
    { BlockHeader := { Previous := 99, fields := 100 }, proof := [] }
    { Transaction := { payload := 100 } } simSyncing rfl rfl (by decide) (by decide) rfl
  ⟨(h.1 (by decide)).1, (h.1 (by decide)).2, (h.2.2.1 (by decide)).1, (h.2.2.1 (by decide)).2⟩

/-- C4: for `OnMerkleBlock` (block unknown, proof of work valid) and `OnTxn`, when the
chain is syncing, the hash of the item is in the request queue, and no block locator is
set, or no sync peer is set, or the ID of the sync peer differs from the ID of the sender,
the handler invokes `ChangeSyncPeerAndRestart` exactly once, returns a non-nil error, does
not mark the item received, requests no block transactions, and calls neither
`CommitData` nor `startSync`; the wallet it leaves is the result of
`ChangeSyncPeerAndRestart`. -/
theorem requested_item_not_from_sync_peer {ρ : Type} (env : Collaborators ρ)
    (peer : Peer) (block : MerkleBlock) (txn : Txn) (w : Wallet ρ)
    (hsync : env.IsSyncing w = true)
    (hcond : w.blockLocator = none ∨ env.GetSyncPeer w = none ∨
      ∃ syncPeer, env.GetSyncPeer w = some syncPeer ∧ syncPeer.ID ≠ peer.ID) :
    (env.IsKnownBlock w (env.HeaderHash block.BlockHeader) = false →
     env.CheckProofOfWork w block.BlockHeader = none →
     env.InRequestQueue w (env.HeaderHash block.BlockHeader) = true →
      ((OnMerkleBlock env peer block).run w).calls.count Call.ChangeSyncPeerAndRestart = 1 ∧
      ((OnMerkleBlock env peer block).run w).err
        = some "Receive message from non sync peer, disconnect" ∧
      ((OnMerkleBlock env peer block).run w).err ≠ none ∧
      ((OnMerkleBlock env peer block).run w).wallet = env.ChangeSyncPeerAndRestart w ∧
      (∀ h b, Call.BlockReceived h b ∉ ((OnMerkleBlock env peer block).run w).calls) ∧
      (∀ p b e, Call.RequestBlockTxns p b e ∉ ((OnMerkleBlock env peer block).run w).calls) ∧
      (∀ e, Call.CommitData e ∉ ((OnMerkleBlock env peer block).run w).calls) ∧
      Call.startSync ∉ ((OnMerkleBlock env peer block).run w).calls) ∧
    (env.InRequestQueue w (env.TxHash txn.Transaction) = true →
      ((OnTxn env peer txn).run w).calls.count Call.ChangeSyncPeerAndRestart = 1 ∧
      ((OnTxn env peer txn).run w).err
        = some "Receive message from non sync peer, disconnect" ∧
      ((OnTxn env peer txn).run w).err ≠ none ∧
      ((OnTxn env peer txn).run w).wallet = env.ChangeSyncPeerAndRestart w ∧
      (∀ h t, Call.TxnReceived h t ∉ ((OnTxn env peer txn).run w).calls) ∧
      (∀ p b e, Call.RequestBlockTxns p b e ∉ ((OnTxn env peer txn).run w).calls) ∧
      (∀ e, Call.CommitData e ∉ ((OnTxn env peer txn).run w).calls) ∧
      Call.startSync ∉ ((OnTxn env peer txn).run w).calls) := by
  constructor
  · intro hknown hpow hreq
    rcases hcond with hloc | hcond
    · simp [OnMerkleBlock, OnMerkleBlock.body, withDataLock, Handler.run,
        syncingAndNotRequested, notFromSyncPeer, hknown, hpow, hsync, hreq, hloc]
    · cases hloc : w.blockLocator <;> rcases hcond with hnone | ⟨sp, hsp, hid⟩ <;>
        simp [OnMerkleBlock, OnMerkleBlock.body, withDataLock, Handler.run,
          syncingAndNotRequested, notFromSyncPeer, hknown, hpow, hsync, hreq, hloc, *]
  · intro hreq
    rcases hcond with hloc | hcond
    · simp [OnTxn, OnTxn.body, withDataLock, Handler.run,
        syncingAndNotRequested, notFromSyncPeer, hsync, hreq, hloc]
    · cases hloc : w.blockLocator <;> rcases hcond with hnone | ⟨sp, hsp, hid⟩ <;>
        simp [OnTxn, OnTxn.body, withDataLock, Handler.run,
          syncingAndNotRequested, notFromSyncPeer, hsync, hreq, hloc, *]

/-- Witness for C4: the elected peer 1 delivers the requested block 100 and the requested
transaction 200 while no block locator is set. -/
theorem requested_item_not_from_sync_peer_witness :
    simEnv.IsSyncing simNoLocator = true ∧ simNoLocator.blockLocator = none ∧
    ((OnMerkleBlock simEnv { id := 1 }
        { BlockHeader := { Previous := 99, fields := 100 }, proof := [] }).run
          simNoLocator).calls.count Call.ChangeSyncPeerAndRestart = 1 ∧
    ((OnTxn simEnv { id := 1 } { Transaction := { payload := 200 } }).run
          simNoLocator).calls.count Call.ChangeSyncPeerAndRestart = 1 :=
  have h := requested_item_not_from_sync_peer simEnv { id := 1 }
    { BlockHeader := { Previous := 99, fields := 100 }, proof := [] }
    { Transaction := { payload := 200 } } simNoLocator rfl (Or.inl rfl)
  ⟨rfl, rfl, (h.1 (by decide) rfl (by decide)).1, (h.2 (by decide)).1⟩

/-! ## Merkle blocks: duplicates and proof of work -/

/-- C5: for every merkle block whose hash the chain reports as known, `OnMerkleBlock`
returns a non-nil error without calling `CheckProofOfWork`; its only calls are taking the
data lock, `IsKnownBlock` and releasing the lock, so the wallet state (orphan pool, request
window, start and stop hash) is unchanged: no `AddOrphanBlock`, no `BlockReceived`, no
`RequestBlockTxns`. -/
theorem OnMerkleBlock_known_block {ρ : Type} (env : Collaborators ρ) (peer : Peer)
    (block : MerkleBlock) (w : Wallet ρ)
    (hknown : env.IsKnownBlock w (env.HeaderHash block.BlockHeader) = true) :
    ((OnMerkleBlock env peer block).run w).err ≠ none ∧
    ((OnMerkleBlock env peer block).run w).err
      = some ("Received block that already known,"
          ++ env.HashString (env.HeaderHash block.BlockHeader)) ∧
    (∀ header e, Call.CheckProofOfWork header e ∉ ((OnMerkleBlock env peer block).run w).calls) ∧
    ((OnMerkleBlock env peer block).run w).wallet = w ∧
    ((OnMerkleBlock env peer block).run w).calls
      = [Call.dataLockLock, Call.IsKnownBlock (env.HeaderHash block.BlockHeader) true,
         Call.dataLockUnlock] ∧
    (∀ h b, Call.AddOrphanBlock h b ∉ ((OnMerkleBlock env peer block).run w).calls) ∧
    (∀ h b, Call.BlockReceived h b ∉ ((OnMerkleBlock env peer block).run w).calls) ∧
    (∀ p b e, Call.RequestBlockTxns p b e ∉ ((OnMerkleBlock env peer block).run w).calls) := by
  simp [OnMerkleBlock, OnMerkleBlock.body, withDataLock, Handler.run, hknown]

/-- Witness for C5: block 99 is known to the syncing wallet. -/
theorem OnMerkleBlock_known_block_witness :
    simEnv.IsKnownBlock simSyncing 99 = true ∧
    ((OnMerkleBlock simEnv { id := 1 }
        { BlockHeader := { Previous := 98, fields := 99 }, proof := [] }).run simSyncing).err
      ≠ none ∧
    ((OnMerkleBlock simEnv { id := 1 }
        { BlockHeader := { Previous := 98, fields := 99 }, proof := [] }).run simSyncing).wallet
      = simSyncing :=
  have h := OnMerkleBlock_known_block simEnv { id := 1 }
    { BlockHeader := { Previous := 98, fields := 99 }, proof := [] } simSyncing (by decide)
  ⟨by decide, h.1, h.2.2.2.1⟩

/-- C6: for every unknown merkle block for which `CheckProofOfWork` returns an error `e`,
`OnMerkleBlock` returns exactly `e`; its only calls are taking the data lock,
`IsKnownBlock`, `CheckProofOfWork` and releasing the lock, so `ChangeSyncPeerAndRestart`
is not invoked, the block is neither added to the orphan pool nor marked received, no
transactions are requested and the wallet state (start and stop hash included) is
unchanged. -/
theorem OnMerkleBlock_invalid_proof_of_work {ρ : Type} (env : Collaborators ρ) (peer : Peer)
    (block : MerkleBlock) (w : Wallet ρ) (e : GoError)
    (hknown : env.IsKnownBlock w (env.HeaderHash block.BlockHeader) = false)
    (hpow : env.CheckProofOfWork w block.BlockHeader = some e) :
    ((OnMerkleBlock env peer block).run w).err = some e ∧
    Call.ChangeSyncPeerAndRestart ∉ ((OnMerkleBlock env peer block).run w).calls ∧
    (∀ h b, Call.AddOrphanBlock h b ∉ ((OnMerkleBlock env peer block).run w).calls) ∧
    (∀ h b, Call.BlockReceived h b ∉ ((OnMerkleBlock env peer block).run w).calls) ∧
    (∀ p b r, Call.RequestBlockTxns p b r ∉ ((OnMerkleBlock env peer block).run w).calls) ∧
    ((OnMerkleBlock env peer block).run w).wallet = w ∧
    ((OnMerkleBlock env peer block).run w).calls
      = [Call.dataLockLock, Call.IsKnownBlock (env.HeaderHash block.BlockHeader) false,
         Call.CheckProofOfWork block.BlockHeader (some e), Call.dataLockUnlock] := by
  simp [OnMerkleBlock, OnMerkleBlock.body, withDataLock, Handler.run, hknown, hpow]

/-- Witness for C6: a block whose header fails the proof of work check. -/
theorem OnMerkleBlock_invalid_proof_of_work_witness :
    simEnv.IsKnownBlock simSyncing 0 = false ∧
    simEnv.CheckProofOfWork simSyncing { Previous := 99, fields := 0 }
      = some "invalid proof of work" ∧
    ((OnMerkleBlock simEnv { id := 1 }
        { BlockHeader := { Previous := 99, fields := 0 }, proof := [] }).run simSyncing).err
      = some "invalid proof of work" :=
  ⟨by decide, rfl,
    (OnMerkleBlock_invalid_proof_of_work simEnv { id := 1 }
      { BlockHeader := { Previous := 99, fields := 0 }, proof := [] } simSyncing
      "invalid proof of work" (by decide) rfl).1⟩

/-! ## Orphans while syncing -/

/-- C7: while the chain is syncing, an item whose hash is not in the request queue is
filed as an orphan and nothing else happens.  `OnMerkleBlock` (block unknown, proof of work
valid) calls `AddOrphanBlock(hash, block)` once and returns `nil`; `OnTxn` calls
`AddOrphanTxn(txId, txn)` once and returns `nil`.  In both cases the wallet left behind is
the result of that one call, the item is not marked received, no data is committed and no
transactions are requested. -/
theorem unrequested_item_while_syncing {ρ : Type} (env : Collaborators ρ) (peer : Peer)
    (block : MerkleBlock) (txn : Txn) (w : Wallet ρ) (hsync : env.IsSyncing w = true) :
    (env.IsKnownBlock w (env.HeaderHash block.BlockHeader) = false →
     env.CheckProofOfWork w block.BlockHeader = none →
     env.InRequestQueue w (env.HeaderHash block.BlockHeader) = false →
      ((OnMerkleBlock env peer block).run w).calls.count
          (Call.AddOrphanBlock (env.HeaderHash block.BlockHeader) block) = 1 ∧
      (∀ h b, Call.AddOrphanBlock h b ∈ ((OnMerkleBlock env peer block).run w).calls →
          h = env.HeaderHash block.BlockHeader ∧ b = block) ∧
      ((OnMerkleBlock env peer block).run w).err = none ∧
      ((OnMerkleBlock env peer block).run w).wallet
        = env.AddOrphanBlock w (env.HeaderHash block.BlockHeader) block ∧
      ((OnMerkleBlock env peer block).run w).calls
        = [Call.dataLockLock, Call.IsKnownBlock (env.HeaderHash block.BlockHeader) false,
           Call.CheckProofOfWork block.BlockHeader none, Call.IsSyncing true,
           Call.InRequestQueue (env.HeaderHash block.BlockHeader) false,
           Call.AddOrphanBlock (env.HeaderHash block.BlockHeader) block,
           Call.dataLockUnlock] ∧
      (∀ h b, Call.BlockReceived h b ∉ ((OnMerkleBlock env peer block).run w).calls) ∧
      (∀ e, Call.CommitData e ∉ ((OnMerkleBlock env peer block).run w).calls) ∧
      (∀ p b e, Call.RequestBlockTxns p b e ∉ ((OnMerkleBlock env peer block).run w).calls)) ∧
    (env.InRequestQueue w (env.TxHash txn.Transaction) = false →
      ((OnTxn env peer txn).run w).calls.count
          (Call.AddOrphanTxn (env.TxHash txn.Transaction) txn) = 1 ∧
      (∀ h t, Call.AddOrphanTxn h t ∈ ((OnTxn env peer txn).run w).calls →
          h = env.TxHash txn.Transaction ∧ t = txn) ∧
      ((OnTxn env peer txn).run w).err = none ∧
      ((OnTxn env peer txn).run w).wallet
        = env.AddOrphanTxn w (env.TxHash txn.Transaction) txn ∧
      ((OnTxn env peer txn).run w).calls
        = [Call.dataLockLock, Call.IsSyncing true,
           Call.InRequestQueue (env.TxHash txn.Transaction) false,
           Call.AddOrphanTxn (env.TxHash txn.Transaction) txn, Call.dataLockUnlock] ∧
      (∀ h t, Call.TxnReceived h t ∉ ((OnTxn env peer txn).run w).calls) ∧
      (∀ e, Call.CommitData e ∉ ((OnTxn env peer txn).run w).calls) ∧
      (∀ t r, Call.CommitUnconfirmedTxn t r ∉ ((OnTxn env peer txn).run w).calls) ∧
      (∀ p b e, Call.RequestBlockTxns p b e ∉ ((OnTxn env peer txn).run w).calls)) := by
  constructor
  · intro hknown hpow hreq
    simp [OnMerkleBlock, OnMerkleBlock.body, withDataLock, Handler.run,
      syncingAndNotRequested, hknown, hpow, hsync, hreq]
  · intro hreq
    simp [OnTxn, OnTxn.body, withDataLock, Handler.run, syncingAndNotRequested, hsync, hreq]

/-- Witness for C7: the sync peer sends block 101 and transaction 101, neither of which
was requested. -/
theorem unrequested_item_while_syncing_witness :
    simEnv.IsSyncing simSyncing = true ∧
    simEnv.InRequestQueue simSyncing 101 = false ∧
    ((OnMerkleBlock simEnv { id := 1 }
        { BlockHeader := { Previous := 99, fields := 101 }, proof := [] }).run simSyncing).err
      = none ∧
    ((OnTxn simEnv { id := 1 } { Transaction := { payload := 101 } }).run simSyncing).err
      = none :=
  have h := unrequested_item_while_syncing simEnv { id := 1 }
    { BlockHeader := { Previous := 99, fields := 101 }, proof := [] }
    { Transaction := { payload := 101 } } simSyncing rfl
  ⟨rfl, by decide, (h.1 (by decide) rfl (by decide)).2.2.1, (h.2 (by decide)).2.2.1⟩

/-! ## Merkle blocks in steady state -/

/-- C8: for every unknown merkle block with valid proof of work that arrives while the
chain is not syncing, from any peer: if its hash equals the hash of the chain tip,
`OnMerkleBlock` returns `nil` and leaves the wallet unchanged; otherwise, if its `Previous`
hash differs from the hash of the tip, the block is added to the orphan pool, `nil` is
returned and nothing is marked received; otherwise `startHash` and `stopHash` are both set
to the hash of the block, the block is marked received with `BlockReceived`, and the
result of `RequestBlockTxns(peer, block)` is returned. -/
theorem OnMerkleBlock_not_syncing {ρ : Type} (env : Collaborators ρ) (peer : Peer)
    (block : MerkleBlock) (w : Wallet ρ)
    (hknown : env.IsKnownBlock w (env.HeaderHash block.BlockHeader) = false)
    (hpow : env.CheckProofOfWork w block.BlockHeader = none)
    (hsync : env.IsSyncing w = false) :
    (env.HeaderHash (env.ChainTip w) = env.HeaderHash block.BlockHeader →
      ((OnMerkleBlock env peer block).run w).err = none ∧
      ((OnMerkleBlock env peer block).run w).wallet = w ∧
      ((OnMerkleBlock env peer block).run w).calls
        = [Call.dataLockLock, Call.IsKnownBlock (env.HeaderHash block.BlockHeader) false,
           Call.CheckProofOfWork block.BlockHeader none, Call.IsSyncing false,
           Call.IsSyncing false, Call.ChainTip (env.ChainTip w), Call.dataLockUnlock]) ∧
    (env.HeaderHash (env.ChainTip w) ≠ env.HeaderHash block.BlockHeader →
     env.HeaderHash (env.ChainTip w) ≠ block.BlockHeader.Previous →
      ((OnMerkleBlock env peer block).run w).err = none ∧
      ((OnMerkleBlock env peer block).run w).wallet
        = env.AddOrphanBlock w (env.HeaderHash block.BlockHeader) block ∧
      ((OnMerkleBlock env peer block).run w).calls.count
          (Call.AddOrphanBlock (env.HeaderHash block.BlockHeader) block) = 1 ∧
      (∀ h b, Call.BlockReceived h b ∉ ((OnMerkleBlock env peer block).run w).calls) ∧
      (∀ p b e, Call.RequestBlockTxns p b e ∉ ((OnMerkleBlock env peer block).run w).calls)) ∧
    (env.HeaderHash (env.ChainTip w) ≠ env.HeaderHash block.BlockHeader →
     env.HeaderHash (env.ChainTip w) = block.BlockHeader.Previous →
      ((OnMerkleBlock env peer block).run w).err
        = (env.RequestBlockTxns
            (env.BlockReceived
              { w with startHash := some (env.HeaderHash block.BlockHeader),
                       stopHash := some (env.HeaderHash block.BlockHeader) }
              (env.HeaderHash block.BlockHeader) block) peer block).1 ∧
      ((OnMerkleBlock env peer block).run w).wallet
        = (env.RequestBlockTxns
            (env.BlockReceived
              { w with startHash := some (env.HeaderHash block.BlockHeader),
                       stopHash := some (env.HeaderHash block.BlockHeader) }
              (env.HeaderHash block.BlockHeader) block) peer block).2 ∧
      ((OnMerkleBlock env peer block).run w).calls.count
          (Call.BlockReceived (env.HeaderHash block.BlockHeader) block) = 1 ∧
      (∀ h b, Call.AddOrphanBlock h b ∉ ((OnMerkleBlock env peer block).run w).calls) ∧
      Call.ChangeSyncPeerAndRestart ∉ ((OnMerkleBlock env peer block).run w).calls) := by
  refine ⟨?_, ?_, ?_⟩
  · intro htip
    simp [OnMerkleBlock, OnMerkleBlock.body, withDataLock, Handler.run,
      syncingAndNotRequested, hknown, hpow, hsync, htip]
  · intro htip hprev
    simp [OnMerkleBlock, OnMerkleBlock.body, withDataLock, Handler.run,
      syncingAndNotRequested, hknown, hpow, hsync, htip, hprev]
  · intro htip hprev
    have hne : block.BlockHeader.Previous ≠ env.HeaderHash block.BlockHeader := hprev ▸ htip
    simp [OnMerkleBlock, OnMerkleBlock.body, withDataLock, Handler.run,
      syncingAndNotRequested, hknown, hpow, hsync, hne, hprev]

/-- Witness for C8: in steady state with tip hash 99, block 100 with `Previous = 99`
extends the tip and block 100 with `Previous = 50` is an orphan. -/
theorem OnMerkleBlock_not_syncing_witness :
    simEnv.IsSyncing simSteady = false ∧
    simEnv.HeaderHash (simEnv.ChainTip simSteady) = 99 ∧
    ((OnMerkleBlock simEnv { id := 7 }
        { BlockHeader := { Previous := 99, fields := 100 }, proof := [] }).run
          simSteady).calls.count
        (Call.BlockReceived 100 { BlockHeader := { Previous := 99, fields := 100 }, proof := [] })
      = 1 ∧
    ((OnMerkleBlock simEnv { id := 7 }
        { BlockHeader := { Previous := 50, fields := 100 }, proof := [] }).run simSteady).err
      = none :=
  ⟨rfl, rfl,
    ((OnMerkleBlock_not_syncing simEnv { id := 7 }
      { BlockHeader := { Previous := 99, fields := 100 }, proof := [] } simSteady
      (by decide) rfl rfl).2.2 (by decide) rfl).2.2.1,
    ((OnMerkleBlock_not_syncing simEnv { id := 7 }
      { BlockHeader := { Previous := 50, fields := 100 }, proof := [] } simSteady
      (by decide) rfl rfl).2.1 (by decide) (by decide)).1⟩

/-! ## Requested merkle blocks from the sync peer -/

/-- C9: when the chain is syncing, a block locator is set, and the elected sync peer (same
ID as the sender) delivers an unknown merkle block with valid proof of work whose hash is
in the request queue, `OnMerkleBlock` calls `BlockReceived` exactly once, with that hash
and block, does not invoke `ChangeSyncPeerAndRestart`, does not add the block to the orphan
pool, and returns exactly the result of `RequestBlockTxns(peer, block)`, hence `nil` when
that request succeeds. -/
theorem OnMerkleBlock_requested_from_sync_peer {ρ : Type} (env : Collaborators ρ)
    (peer syncPeer : Peer) (block : MerkleBlock) (w : Wallet ρ) (locator : List Uint256)
    (hknown : env.IsKnownBlock w (env.HeaderHash block.BlockHeader) = false)
    (hpow : env.CheckProofOfWork w block.BlockHeader = none)
    (hsync : env.IsSyncing w = true)
    (hreq : env.InRequestQueue w (env.HeaderHash block.BlockHeader) = true)
    (hloc : w.blockLocator = some locator)
    (hpeer : env.GetSyncPeer w = some syncPeer) (hid : syncPeer.ID = peer.ID) :
    ((OnMerkleBlock env peer block).run w).calls.count
        (Call.BlockReceived (env.HeaderHash block.BlockHeader) block) = 1 ∧
    (∀ h b, Call.BlockReceived h b ∈ ((OnMerkleBlock env peer block).run w).calls →
        h = env.HeaderHash block.BlockHeader ∧ b = block) ∧
    Call.ChangeSyncPeerAndRestart ∉ ((OnMerkleBlock env peer block).run w).calls ∧
    (∀ h b, Call.AddOrphanBlock h b ∉ ((OnMerkleBlock env peer block).run w).calls) ∧
    ((OnMerkleBlock env peer block).run w).err
      = (env.RequestBlockTxns
          (env.BlockReceived w (env.HeaderHash block.BlockHeader) block) peer block).1 ∧
    ((OnMerkleBlock env peer block).run w).wallet
      = (env.RequestBlockTxns
          (env.BlockReceived w (env.HeaderHash block.BlockHeader) block) peer block).2 ∧
    ((env.RequestBlockTxns
          (env.BlockReceived w (env.HeaderHash block.BlockHeader) block) peer block).1 = none →
      ((OnMerkleBlock env peer block).run w).err = none) := by
  simp [OnMerkleBlock, OnMerkleBlock.body, withDataLock, Handler.run,
    syncingAndNotRequested, notFromSyncPeer, hknown, hpow, hsync, hreq, hloc, hpeer, hid]

/-- Witness for C9: the elected peer 1 delivers the requested block 100. -/
theorem OnMerkleBlock_requested_from_sync_peer_witness :
    ((OnMerkleBlock simEnv { id := 1 }
        { BlockHeader := { Previous := 99, fields := 100 }, proof := [] }).run
          simSyncing).calls.count
        (Call.BlockReceived 100 { BlockHeader := { Previous := 99, fields := 100 }, proof := [] })
      = 1 ∧
    ((OnMerkleBlock simEnv { id := 1 }
        { BlockHeader := { Previous := 99, fields := 100 }, proof := [] }).run simSyncing).err
      = none :=
  have h := OnMerkleBlock_requested_from_sync_peer simEnv { id := 1 } { id := 1 }
    { BlockHeader := { Previous := 99, fields := 100 }, proof := [] } simSyncing [99]
    (by decide) rfl rfl (by decide) rfl rfl rfl
  ⟨h.1, h.2.2.2.2.2.2 rfl⟩

/-! ## Committing a finished request -/

set_option maxHeartbeats 1000000 in
/-- The call log of `OnTxn` around the commit step, on every path: `CommitData` is in the
log exactly when `TxnReceived` directly followed by `RequestFinished` returning true is,
and then once, directly after them; `RequestFinished` is only consulted directly after
`TxnReceived`; after a successful `CommitData` there is one `startSync` and the result is
`nil`; after `RequestFinished` returning false there is neither `CommitData` nor
`startSync` and the result is `nil`. -/
theorem OnTxn_commit_log {ρ : Type} (env : Collaborators ρ) (peer : Peer)
    (txn : Txn) (w : Wallet ρ) :
    ((∃ e, Call.CommitData e ∈ ((OnTxn env peer txn).run w).calls) ↔
      [Call.TxnReceived (env.TxHash txn.Transaction) txn, Call.RequestFinished true]
        <:+: ((OnTxn env peer txn).run w).calls) ∧
    (∀ e, Call.CommitData e ∈ ((OnTxn env peer txn).run w).calls →
      [Call.TxnReceived (env.TxHash txn.Transaction) txn, Call.RequestFinished true,
        Call.CommitData e] <:+: ((OnTxn env peer txn).run w).calls ∧
      ((OnTxn env peer txn).run w).calls.count (Call.CommitData e) = 1) ∧
    (∀ r, Call.RequestFinished r ∈ ((OnTxn env peer txn).run w).calls →
      [Call.TxnReceived (env.TxHash txn.Transaction) txn, Call.RequestFinished r]
        <:+: ((OnTxn env peer txn).run w).calls) ∧
    (Call.CommitData none ∈ ((OnTxn env peer txn).run w).calls →
      ((OnTxn env peer txn).run w).calls.count Call.startSync = 1 ∧
      ((OnTxn env peer txn).run w).err = none) ∧
    (Call.RequestFinished false ∈ ((OnTxn env peer txn).run w).calls →
      (∀ e, Call.CommitData e ∉ ((OnTxn env peer txn).run w).calls) ∧
      Call.startSync ∉ ((OnTxn env peer txn).run w).calls ∧
      ((OnTxn env peer txn).run w).err = none) := by
  generalize hgo : (OnTxn env peer txn).run w = o
  cases hs : env.IsSyncing w
  · cases hc : env.TxCached w (env.TxHash txn.Transaction)
    · rcases hcu : env.CommitUnconfirmedTxn w txn.Transaction with ⟨⟨fp, _ | ce⟩, w2⟩
      · cases fp
        · cases hr : env.RequestFinished (env.TxnReceived w2 (env.TxHash txn.Transaction) txn) <;>
          rcases hcd : env.CommitData (env.TxnReceived w2 (env.TxHash txn.Transaction) txn)
              with ⟨_ | e, w3⟩ <;>
          simp [OnTxn, OnTxn.body, withDataLock, Handler.run, syncingAndNotRequested,
      notFromSyncPeer,
            hs, hc, hcu, hr, hcd] at hgo <;>
          subst hgo <;>
          simp [List.infix_cons_iff]
        · cases hr : env.RequestFinished (env.TxnReceived (env.handleFPositive w2 1) (env.TxHash txn.Transaction) txn) <;>
          rcases hcd : env.CommitData (env.TxnReceived (env.handleFPositive w2 1) (env.TxHash txn.Transaction) txn)
              with ⟨_ | e, w3⟩ <;>
          simp [OnTxn, OnTxn.body, withDataLock, Handler.run, syncingAndNotRequested,
      notFromSyncPeer,
            hs, hc, hcu, hr, hcd] at hgo <;>
          subst hgo <;>
          simp [List.infix_cons_iff]
      · simp [OnTxn, OnTxn.body, withDataLock, Handler.run, syncingAndNotRequested,
      notFromSyncPeer,
          hs, hc, hcu] at hgo
        subst hgo
        simp [List.infix_cons_iff]
    · simp [OnTxn, OnTxn.body, withDataLock, Handler.run, syncingAndNotRequested,
      notFromSyncPeer,
        hs, hc] at hgo
      subst hgo
      simp [List.infix_cons_iff]
  · cases hq : env.InRequestQueue w (env.TxHash txn.Transaction)
    · simp [OnTxn, OnTxn.body, withDataLock, Handler.run, syncingAndNotRequested,
      notFromSyncPeer,
        hs, hq] at hgo
      subst hgo
      simp [List.infix_cons_iff]
    · cases hl : w.blockLocator
      · simp [OnTxn, OnTxn.body, withDataLock, Handler.run, syncingAndNotRequested,
      notFromSyncPeer,
          hs, hq, hl] at hgo
        subst hgo
        simp [List.infix_cons_iff]
      · cases hp : env.GetSyncPeer w
        · simp [OnTxn, OnTxn.body, withDataLock, Handler.run, syncingAndNotRequested,
      notFromSyncPeer,
            hs, hq, hl, hp] at hgo
          subst hgo
          simp [List.infix_cons_iff]
        · rename_i locator syncPeer
          by_cases hid : syncPeer.ID = peer.ID
          · cases hr : env.RequestFinished (env.TxnReceived w (env.TxHash txn.Transaction) txn) <;>
            rcases hcd : env.CommitData (env.TxnReceived w (env.TxHash txn.Transaction) txn)
                with ⟨_ | e, w3⟩ <;>
            simp [OnTxn, OnTxn.body, withDataLock, Handler.run, syncingAndNotRequested,
      notFromSyncPeer,
              hs, hq, hl, hp, hid, hr, hcd] at hgo <;>
            subst hgo <;>
            simp [List.infix_cons_iff]
          · simp [OnTxn, OnTxn.body, withDataLock, Handler.run, syncingAndNotRequested,
      notFromSyncPeer,
              hs, hq, hl, hp, hid] at hgo
            subst hgo
            simp [List.infix_cons_iff]

set_option maxHeartbeats 1000000 in
/-- C10: in `OnTxn`, `CommitData` is called exactly when `RequestFinished()` is true after
the transaction has been marked received with `TxnReceived`.  First part: on the two paths
that reach the mark-received step in a wallet state `w0` (while syncing, a requested
transaction from the sync peer, with `w0` the state at entry; in steady state, a
transaction that is not cached and that `CommitUnconfirmedTxn` accepts, with `w0` the
state after it and after `handleFPositive` on a false positive), `TxnReceived` is called
once, `RequestFinished` is asked directly after it, in the state `TxnReceived` produced,
and `CommitData` is called if and only if that answer is true, then once, directly after,
in that same state; if `CommitData` succeeds, `startSync` is called exactly once on the
state `CommitData` produced and `OnTxn` returns `nil`; if the request is not finished,
neither `CommitData` nor `startSync` is called, `OnTxn` returns `nil` and the wallet is
the one `TxnReceived` produced.  Second part: on every other path none of `TxnReceived`,
`RequestFinished`, `CommitData` and `startSync` is called.  Third part: the same in terms
of the call log alone, on every path. -/
theorem OnTxn_commit_when_finished {ρ : Type} (env : Collaborators ρ) (peer : Peer)
    (txn : Txn) (w : Wallet ρ) :
    (∀ w0 : Wallet ρ,
      ((env.IsSyncing w = true ∧ env.InRequestQueue w (env.TxHash txn.Transaction) = true ∧
          w.blockLocator ≠ none ∧
          (∃ syncPeer, env.GetSyncPeer w = some syncPeer ∧ syncPeer.ID = peer.ID) ∧
          w0 = w) ∨
       (env.IsSyncing w = false ∧ env.TxCached w (env.TxHash txn.Transaction) = false ∧
          (env.CommitUnconfirmedTxn w txn.Transaction).1.2 = none ∧
          w0 = (if (env.CommitUnconfirmedTxn w txn.Transaction).1.1 = true
                then env.handleFPositive (env.CommitUnconfirmedTxn w txn.Transaction).2 1
                else (env.CommitUnconfirmedTxn w txn.Transaction).2))) →
      ((OnTxn env peer txn).run w).calls.count (Call.TxnReceived (env.TxHash txn.Transaction) txn) = 1 ∧
      [Call.TxnReceived (env.TxHash txn.Transaction) txn,
        Call.RequestFinished (env.RequestFinished (env.TxnReceived w0 (env.TxHash txn.Transaction) txn))]
        <:+: ((OnTxn env peer txn).run w).calls ∧
      ((∃ e, Call.CommitData e ∈ ((OnTxn env peer txn).run w).calls) ↔
        env.RequestFinished (env.TxnReceived w0 (env.TxHash txn.Transaction) txn) = true) ∧
      (env.RequestFinished (env.TxnReceived w0 (env.TxHash txn.Transaction) txn) = true →
        [Call.TxnReceived (env.TxHash txn.Transaction) txn, Call.RequestFinished true,
          Call.CommitData (env.CommitData (env.TxnReceived w0 (env.TxHash txn.Transaction) txn)).1]
          <:+: ((OnTxn env peer txn).run w).calls ∧
        ((OnTxn env peer txn).run w).calls.count
          (Call.CommitData (env.CommitData (env.TxnReceived w0 (env.TxHash txn.Transaction) txn)).1) = 1) ∧
      (env.RequestFinished (env.TxnReceived w0 (env.TxHash txn.Transaction) txn) = true →
       (env.CommitData (env.TxnReceived w0 (env.TxHash txn.Transaction) txn)).1 = none →
        ((OnTxn env peer txn).run w).calls.count Call.startSync = 1 ∧
        ((OnTxn env peer txn).run w).err = none ∧
        ((OnTxn env peer txn).run w).wallet
          = env.startSync (env.CommitData (env.TxnReceived w0 (env.TxHash txn.Transaction) txn)).2) ∧
      (env.RequestFinished (env.TxnReceived w0 (env.TxHash txn.Transaction) txn) = false →
        (∀ e, Call.CommitData e ∉ ((OnTxn env peer txn).run w).calls) ∧
        Call.startSync ∉ ((OnTxn env peer txn).run w).calls ∧
        ((OnTxn env peer txn).run w).err = none ∧
        ((OnTxn env peer txn).run w).wallet = env.TxnReceived w0 (env.TxHash txn.Transaction) txn)) ∧
    (((env.IsSyncing w = true ∧ env.InRequestQueue w (env.TxHash txn.Transaction) = false) ∨
      (env.IsSyncing w = true ∧ env.InRequestQueue w (env.TxHash txn.Transaction) = true ∧
        (w.blockLocator = none ∨ env.GetSyncPeer w = none ∨
          ∃ syncPeer, env.GetSyncPeer w = some syncPeer ∧ syncPeer.ID ≠ peer.ID)) ∨
      (env.IsSyncing w = false ∧ env.TxCached w (env.TxHash txn.Transaction) = true) ∨
      (env.IsSyncing w = false ∧ env.TxCached w (env.TxHash txn.Transaction) = false ∧
        (env.CommitUnconfirmedTxn w txn.Transaction).1.2 ≠ none)) →
      (∀ h t, Call.TxnReceived h t ∉ ((OnTxn env peer txn).run w).calls) ∧
      (∀ r, Call.RequestFinished r ∉ ((OnTxn env peer txn).run w).calls) ∧
      (∀ e, Call.CommitData e ∉ ((OnTxn env peer txn).run w).calls) ∧
      Call.startSync ∉ ((OnTxn env peer txn).run w).calls) ∧
    (((∃ e, Call.CommitData e ∈ ((OnTxn env peer txn).run w).calls) ↔
        [Call.TxnReceived (env.TxHash txn.Transaction) txn, Call.RequestFinished true]
          <:+: ((OnTxn env peer txn).run w).calls) ∧
      (∀ e, Call.CommitData e ∈ ((OnTxn env peer txn).run w).calls →
        [Call.TxnReceived (env.TxHash txn.Transaction) txn, Call.RequestFinished true,
          Call.CommitData e] <:+: ((OnTxn env peer txn).run w).calls ∧
        ((OnTxn env peer txn).run w).calls.count (Call.CommitData e) = 1) ∧
      (∀ r, Call.RequestFinished r ∈ ((OnTxn env peer txn).run w).calls →
        [Call.TxnReceived (env.TxHash txn.Transaction) txn, Call.RequestFinished r]
          <:+: ((OnTxn env peer txn).run w).calls) ∧
      (Call.CommitData none ∈ ((OnTxn env peer txn).run w).calls →
        ((OnTxn env peer txn).run w).calls.count Call.startSync = 1 ∧
        ((OnTxn env peer txn).run w).err = none) ∧
      (Call.RequestFinished false ∈ ((OnTxn env peer txn).run w).calls →
        (∀ e, Call.CommitData e ∉ ((OnTxn env peer txn).run w).calls) ∧
        Call.startSync ∉ ((OnTxn env peer txn).run w).calls ∧
        ((OnTxn env peer txn).run w).err = none)) := by
  refine ⟨?_, ?_, OnTxn_commit_log env peer txn w⟩
  · intro w0 hreach
    rcases hreach with ⟨hs, hq, hl, ⟨syncPeer, hp, hid⟩, rfl⟩ | ⟨hs, hc, hce, rfl⟩
    · cases hloc : w0.blockLocator with
      | none => exact absurd hloc hl
      | some locator =>
        generalize hgo : (OnTxn env peer txn).run w0 = o
        cases hr : env.RequestFinished (env.TxnReceived w0 (env.TxHash txn.Transaction) txn) <;>
        rcases hcd : env.CommitData (env.TxnReceived w0 (env.TxHash txn.Transaction) txn)
            with ⟨_ | e2, w3⟩ <;>
        simp [OnTxn, OnTxn.body, withDataLock, Handler.run, syncingAndNotRequested,
      notFromSyncPeer,
          hs, hq, hloc, hp, hid, hr, hcd] at hgo <;>
        subst hgo <;>
        simp [List.infix_cons_iff]
    · rcases hcu : env.CommitUnconfirmedTxn w txn.Transaction with ⟨⟨fp, ce⟩, w2⟩
      rw [hcu] at hce
      simp only at hce
      subst hce
      cases fp
      · simp only [hcu, Bool.false_eq_true, if_false]
        generalize hgo : (OnTxn env peer txn).run w = o
        cases hr : env.RequestFinished (env.TxnReceived w2 (env.TxHash txn.Transaction) txn) <;>
        rcases hcd : env.CommitData (env.TxnReceived w2 (env.TxHash txn.Transaction) txn)
            with ⟨_ | e2, w3⟩ <;>
        simp [OnTxn, OnTxn.body, withDataLock, Handler.run, syncingAndNotRequested,
      notFromSyncPeer,
          hs, hc, hcu, hr, hcd] at hgo <;>
        subst hgo <;>
        simp [List.infix_cons_iff]
      · simp only [hcu, if_true]
        generalize hgo : (OnTxn env peer txn).run w = o
        cases hr : env.RequestFinished (env.TxnReceived (env.handleFPositive w2 1) (env.TxHash txn.Transaction) txn) <;>
        rcases hcd : env.CommitData (env.TxnReceived (env.handleFPositive w2 1) (env.TxHash txn.Transaction) txn)
            with ⟨_ | e2, w3⟩ <;>
        simp [OnTxn, OnTxn.body, withDataLock, Handler.run, syncingAndNotRequested,
      notFromSyncPeer,
          hs, hc, hcu, hr, hcd] at hgo <;>
        subst hgo <;>
        simp [List.infix_cons_iff]
  · intro hexit
    rcases hexit with ⟨hs, hq⟩ | ⟨hs, hq, hcond⟩ | ⟨hs, hc⟩ | ⟨hs, hc, hce⟩
    · generalize hgo : (OnTxn env peer txn).run w = o
      simp [OnTxn, OnTxn.body, withDataLock, Handler.run, syncingAndNotRequested,
      notFromSyncPeer,
        hs, hq] at hgo
      subst hgo
      simp
    · cases hloc : w.blockLocator with
      | none =>
        generalize hgo : (OnTxn env peer txn).run w = o
        simp [OnTxn, OnTxn.body, withDataLock, Handler.run, syncingAndNotRequested,
      notFromSyncPeer,
          hs, hq, hloc] at hgo
        subst hgo
        simp
      | some locator =>
        rcases hcond with hl | hp | ⟨syncPeer, hp, hid⟩
        · rw [hloc] at hl
          simp at hl
        · generalize hgo : (OnTxn env peer txn).run w = o
          simp [OnTxn, OnTxn.body, withDataLock, Handler.run, syncingAndNotRequested,
      notFromSyncPeer,
            hs, hq, hloc, hp] at hgo
          subst hgo
          simp
        · generalize hgo : (OnTxn env peer txn).run w = o
          simp [OnTxn, OnTxn.body, withDataLock, Handler.run, syncingAndNotRequested,
      notFromSyncPeer,
            hs, hq, hloc, hp, hid] at hgo
          subst hgo
          simp
    · generalize hgo : (OnTxn env peer txn).run w = o
      simp [OnTxn, OnTxn.body, withDataLock, Handler.run, syncingAndNotRequested,
      notFromSyncPeer,
        hs, hc] at hgo
      subst hgo
      simp
    · rcases hcu : env.CommitUnconfirmedTxn w txn.Transaction with ⟨⟨fp, ce⟩, w2⟩
      rw [hcu] at hce
      cases ce with
      | none => simp at hce
      | some e =>
        generalize hgo : (OnTxn env peer txn).run w = o
        simp [OnTxn, OnTxn.body, withDataLock, Handler.run, syncingAndNotRequested,
      notFromSyncPeer,
          hs, hc, hcu] at hgo
        subst hgo
        simp

/-- Witness for C10: the elected peer 1 delivers transaction 100, the last outstanding
item of the request, so the batch is committed and synchronisation resumes; the same
transaction with item 200 still outstanding is marked received and nothing is committed;
in steady state a transaction from any peer is marked received; an unrequested transaction
while syncing is not. -/
theorem OnTxn_commit_when_finished_witness :
    (simEnv.RequestFinished
        (simEnv.TxnReceived simLastItem 100 { Transaction := { payload := 100 } }) = true ∧
      ((OnTxn simEnv { id := 1 } { Transaction := { payload := 100 } }).run
          simLastItem).calls.count (Call.CommitData none) = 1 ∧
      ((OnTxn simEnv { id := 1 } { Transaction := { payload := 100 } }).run
          simLastItem).calls.count Call.startSync = 1 ∧
      ((OnTxn simEnv { id := 1 } { Transaction := { payload := 100 } }).run simLastItem).err
        = none) ∧
    (simEnv.RequestFinished
        (simEnv.TxnReceived simSyncing 100 { Transaction := { payload := 100 } }) = false ∧
      (∀ e, Call.CommitData e ∉
        ((OnTxn simEnv { id := 1 } { Transaction := { payload := 100 } }).run
          simSyncing).calls) ∧
      Call.startSync ∉
        ((OnTxn simEnv { id := 1 } { Transaction := { payload := 100 } }).run
          simSyncing).calls ∧
      ((OnTxn simEnv { id := 1 } { Transaction := { payload := 100 } }).run simSyncing).wallet
        = simEnv.TxnReceived simSyncing 100 { Transaction := { payload := 100 } }) ∧
    (simEnv.IsSyncing simSteady = false ∧
      ((OnTxn simEnv { id := 2 } { Transaction := { payload := 100 } }).run
          simSteady).calls.count
        (Call.TxnReceived 100 { Transaction := { payload := 100 } }) = 1) ∧
    (simEnv.InRequestQueue simSyncing 300 = false ∧
      ∀ h t, Call.TxnReceived h t ∉
        ((OnTxn simEnv { id := 1 } { Transaction := { payload := 300 } }).run
          simSyncing).calls) :=
  have h1 := (OnTxn_commit_when_finished simEnv { id := 1 }
    { Transaction := { payload := 100 } } simLastItem).1 simLastItem
    (Or.inl ⟨by decide, by decide, by decide, ⟨{ id := 1 }, by decide, rfl⟩, rfl⟩)
  have h2 := (OnTxn_commit_when_finished simEnv { id := 1 }
    { Transaction := { payload := 100 } } simSyncing).1 simSyncing
    (Or.inl ⟨by decide, by decide, by decide, ⟨{ id := 1 }, by decide, rfl⟩, rfl⟩)
  have h3 := (OnTxn_commit_when_finished simEnv { id := 2 }
    { Transaction := { payload := 100 } } simSteady).1 _
    (Or.inr ⟨by decide, by decide, by decide, rfl⟩)
  have h4 := (OnTxn_commit_when_finished simEnv { id := 1 }
    { Transaction := { payload := 300 } } simSyncing).2.1
    (Or.inl ⟨by decide, by decide⟩)
  ⟨⟨by decide, (h1.2.2.2.1 (by decide)).2, (h1.2.2.2.2.1 (by decide) (by decide)).1,
      (h1.2.2.2.2.1 (by decide) (by decide)).2.1⟩,
    ⟨by decide, (h2.2.2.2.2.2 (by decide)).1, (h2.2.2.2.2.2 (by decide)).2.1,
      (h2.2.2.2.2.2 (by decide)).2.2.2⟩,
    ⟨by decide, h3.1⟩,
    ⟨by decide, h4.1⟩⟩

/-! ## Commit failures -/

set_option maxHeartbeats 1000000 in
/-- C11: when `OnTxn` reaches the commit step and `CommitData` returns an error `e`,
`OnTxn` returns exactly `e`, calls neither `startSync` nor `ChangeSyncPeerAndRestart`, and
makes no further call after the failed commit except releasing the data lock, so the
wallet it leaves (request window included) is the one `CommitData` returned. -/
theorem OnTxn_commit_error {ρ : Type} (env : Collaborators ρ) (peer : Peer) (txn : Txn)
    (w : Wallet ρ) (e : GoError)
    (hfail : Call.CommitData (some e) ∈ ((OnTxn env peer txn).run w).calls) :
    ((OnTxn env peer txn).run w).err = some e ∧
    Call.startSync ∉ ((OnTxn env peer txn).run w).calls ∧
    Call.ChangeSyncPeerAndRestart ∉ ((OnTxn env peer txn).run w).calls ∧
    [Call.CommitData (some e), Call.dataLockUnlock] <:+ ((OnTxn env peer txn).run w).calls ∧
    (∃ w1, env.CommitData w1 = (some e, ((OnTxn env peer txn).run w).wallet)) := by
  revert hfail
  generalize hgo : (OnTxn env peer txn).run w = o
  cases hs : env.IsSyncing w
  · cases hc : env.TxCached w (env.TxHash txn.Transaction)
    · rcases hcu : env.CommitUnconfirmedTxn w txn.Transaction with ⟨⟨fp, _ | ce⟩, w2⟩
      · cases fp
        · cases hr : env.RequestFinished (env.TxnReceived w2 (env.TxHash txn.Transaction) txn) <;>
          rcases hcd : env.CommitData (env.TxnReceived w2 (env.TxHash txn.Transaction) txn)
              with ⟨_ | e2, w3⟩ <;>
          simp [OnTxn, OnTxn.body, withDataLock, Handler.run, syncingAndNotRequested,
      notFromSyncPeer,
            hs, hc, hcu, hr, hcd] at hgo <;>
          subst hgo <;>
          (simp [List.suffix_cons_iff]; try (intro he; subst he; exact ⟨rfl, rfl, _, hcd⟩))
        · cases hr : env.RequestFinished (env.TxnReceived (env.handleFPositive w2 1) (env.TxHash txn.Transaction) txn) <;>
          rcases hcd : env.CommitData (env.TxnReceived (env.handleFPositive w2 1) (env.TxHash txn.Transaction) txn)
              with ⟨_ | e2, w3⟩ <;>
          simp [OnTxn, OnTxn.body, withDataLock, Handler.run, syncingAndNotRequested,
      notFromSyncPeer,
            hs, hc, hcu, hr, hcd] at hgo <;>
          subst hgo <;>
          (simp [List.suffix_cons_iff]; try (intro he; subst he; exact ⟨rfl, rfl, _, hcd⟩))
      · simp [OnTxn, OnTxn.body, withDataLock, Handler.run, syncingAndNotRequested,
      notFromSyncPeer,
          hs, hc, hcu] at hgo
        subst hgo
        simp [List.suffix_cons_iff]
    · simp [OnTxn, OnTxn.body, withDataLock, Handler.run, syncingAndNotRequested,
      notFromSyncPeer,
        hs, hc] at hgo
      subst hgo
      simp [List.suffix_cons_iff]
  · cases hq : env.InRequestQueue w (env.TxHash txn.Transaction)
    · simp [OnTxn, OnTxn.body, withDataLock, Handler.run, syncingAndNotRequested,
      notFromSyncPeer,
        hs, hq] at hgo
      subst hgo
      simp [List.suffix_cons_iff]
    · cases hl : w.blockLocator
      · simp [OnTxn, OnTxn.body, withDataLock, Handler.run, syncingAndNotRequested,
      notFromSyncPeer,
          hs, hq, hl] at hgo
        subst hgo
        simp [List.suffix_cons_iff]
      · cases hp : env.GetSyncPeer w
        · simp [OnTxn, OnTxn.body, withDataLock, Handler.run, syncingAndNotRequested,
      notFromSyncPeer,
            hs, hq, hl, hp] at hgo
          subst hgo
          simp [List.suffix_cons_iff]
        · rename_i locator syncPeer
          by_cases hid : syncPeer.ID = peer.ID
          · cases hr : env.RequestFinished (env.TxnReceived w (env.TxHash txn.Transaction) txn) <;>
            rcases hcd : env.CommitData (env.TxnReceived w (env.TxHash txn.Transaction) txn)
                with ⟨_ | e2, w3⟩ <;>
            simp [OnTxn, OnTxn.body, withDataLock, Handler.run, syncingAndNotRequested,
      notFromSyncPeer,
              hs, hq, hl, hp, hid, hr, hcd] at hgo <;>
            subst hgo <;>
            (simp [List.suffix_cons_iff]; try (intro he; subst he; exact ⟨rfl, rfl, _, hcd⟩))
          · simp [OnTxn, OnTxn.body, withDataLock, Handler.run, syncingAndNotRequested,
      notFromSyncPeer,
              hs, hq, hl, hp, hid] at hgo
            subst hgo
            simp [List.suffix_cons_iff]

/-- Witness for C11: the elected peer 1 delivers the last outstanding transaction 100 and
the commit fails. -/
theorem OnTxn_commit_error_witness :
    Call.CommitData (some "commit failed") ∈
      ((OnTxn simEnvCommitFails { id := 1 } { Transaction := { payload := 100 } }).run
        simLastItem).calls ∧
    ((OnTxn simEnvCommitFails { id := 1 } { Transaction := { payload := 100 } }).run
        simLastItem).err = some "commit failed" ∧
    Call.startSync ∉
      ((OnTxn simEnvCommitFails { id := 1 } { Transaction := { payload := 100 } }).run
        simLastItem).calls :=
  have h := OnTxn_commit_error simEnvCommitFails { id := 1 }
    { Transaction := { payload := 100 } } simLastItem "commit failed" (by decide)
  ⟨by decide, h.1, h.2.1⟩

/-! ## Cached transactions and false positives -/

/-- C12: when the chain is not syncing and the memory cache already holds the transaction,
`OnTxn` returns a non-nil error and does nothing else: its only calls are taking the data
lock, `IsSyncing` (twice), `TxCached` and releasing the lock, so `CommitUnconfirmedTxn` and
`handleFPositive` are not called, the transaction is not marked received, neither
`CommitData` nor `startSync` is called, and the wallet is unchanged. -/
theorem OnTxn_cached {ρ : Type} (env : Collaborators ρ) (peer : Peer) (txn : Txn)
    (w : Wallet ρ) (hsync : env.IsSyncing w = false)
    (hcached : env.TxCached w (env.TxHash txn.Transaction) = true) :
    ((OnTxn env peer txn).run w).err ≠ none ∧
    ((OnTxn env peer txn).run w).err = some "Received transaction already cached" ∧
    ((OnTxn env peer txn).run w).wallet = w ∧
    ((OnTxn env peer txn).run w).calls
      = [Call.dataLockLock, Call.IsSyncing false, Call.IsSyncing false,
         Call.TxCached (env.TxHash txn.Transaction) true, Call.dataLockUnlock] ∧
    (∀ t r, Call.CommitUnconfirmedTxn t r ∉ ((OnTxn env peer txn).run w).calls) ∧
    (∀ n, Call.handleFPositive n ∉ ((OnTxn env peer txn).run w).calls) ∧
    (∀ h t, Call.TxnReceived h t ∉ ((OnTxn env peer txn).run w).calls) ∧
    (∀ e, Call.CommitData e ∉ ((OnTxn env peer txn).run w).calls) ∧
    Call.startSync ∉ ((OnTxn env peer txn).run w).calls := by
  simp [OnTxn, OnTxn.body, withDataLock, Handler.run, syncingAndNotRequested, hsync, hcached]

/-- Witness for C12: in steady state, transaction 101 is already in the memory cache. -/
theorem OnTxn_cached_witness :
    simEnvCached.IsSyncing simSteady = false ∧
    simEnvCached.TxCached simSteady 101 = true ∧
    ((OnTxn simEnvCached { id := 1 } { Transaction := { payload := 101 } }).run simSteady).err
      = some "Received transaction already cached" ∧
    ((OnTxn simEnvCached { id := 1 } { Transaction := { payload := 101 } }).run
        simSteady).wallet = simSteady :=
  have h := OnTxn_cached simEnvCached { id := 1 } { Transaction := { payload := 101 } }
    simSteady rfl rfl
  ⟨rfl, rfl, h.2.1, h.2.2.1⟩

set_option maxHeartbeats 1000000 in
/-- C13: in every call of `OnTxn`, `handleFPositive` is only ever invoked with amount 1,
and it is invoked exactly once if the chain is not syncing, the transaction is not cached
and `CommitUnconfirmedTxn` returns the flag true with no error, and not at all in every
other case. -/
theorem OnTxn_false_positive_count {ρ : Type} (env : Collaborators ρ) (peer : Peer)
    (txn : Txn) (w : Wallet ρ) :
    (∀ n, Call.handleFPositive n ∈ ((OnTxn env peer txn).run w).calls → n = 1) ∧
    ((OnTxn env peer txn).run w).calls.count (Call.handleFPositive 1)
      = if env.IsSyncing w = false ∧ env.TxCached w (env.TxHash txn.Transaction) = false ∧
            (env.CommitUnconfirmedTxn w txn.Transaction).1 = (true, none)
        then 1 else 0 := by
  generalize hgo : (OnTxn env peer txn).run w = o
  cases hs : env.IsSyncing w
  · cases hc : env.TxCached w (env.TxHash txn.Transaction)
    · rcases hcu : env.CommitUnconfirmedTxn w txn.Transaction with ⟨⟨fp, _ | ce⟩, w2⟩
      · cases fp
        · cases hr : env.RequestFinished (env.TxnReceived w2 (env.TxHash txn.Transaction) txn) <;>
          rcases hcd : env.CommitData (env.TxnReceived w2 (env.TxHash txn.Transaction) txn)
              with ⟨_ | e2, w3⟩ <;>
          simp [OnTxn, OnTxn.body, withDataLock, Handler.run, syncingAndNotRequested,
      notFromSyncPeer,
            hs, hc, hcu, hr, hcd] at hgo <;>
          subst hgo <;>
          simp [hs, *]
        · cases hr : env.RequestFinished (env.TxnReceived (env.handleFPositive w2 1) (env.TxHash txn.Transaction) txn) <;>
          rcases hcd : env.CommitData (env.TxnReceived (env.handleFPositive w2 1) (env.TxHash txn.Transaction) txn)
              with ⟨_ | e2, w3⟩ <;>
          simp [OnTxn, OnTxn.body, withDataLock, Handler.run, syncingAndNotRequested,
      notFromSyncPeer,
            hs, hc, hcu, hr, hcd] at hgo <;>
          subst hgo <;>
          simp [hs, *]
      · simp [OnTxn, OnTxn.body, withDataLock, Handler.run, syncingAndNotRequested,
      notFromSyncPeer,
          hs, hc, hcu] at hgo
        subst hgo
        simp [hs, *]
    · simp [OnTxn, OnTxn.body, withDataLock, Handler.run, syncingAndNotRequested,
      notFromSyncPeer,
        hs, hc] at hgo
      subst hgo
      simp [hs, *]
  · cases hq : env.InRequestQueue w (env.TxHash txn.Transaction)
    · simp [OnTxn, OnTxn.body, withDataLock, Handler.run, syncingAndNotRequested,
      notFromSyncPeer,
        hs, hq] at hgo
      subst hgo
      simp [hs, *]
    · cases hl : w.blockLocator
      · simp [OnTxn, OnTxn.body, withDataLock, Handler.run, syncingAndNotRequested,
      notFromSyncPeer,
          hs, hq, hl] at hgo
        subst hgo
        simp [hs, *]
      · cases hp : env.GetSyncPeer w
        · simp [OnTxn, OnTxn.body, withDataLock, Handler.run, syncingAndNotRequested,
      notFromSyncPeer,
            hs, hq, hl, hp] at hgo
          subst hgo
          simp [hs, *]
        · rename_i locator syncPeer
          by_cases hid : syncPeer.ID = peer.ID
          · cases hr : env.RequestFinished (env.TxnReceived w (env.TxHash txn.Transaction) txn) <;>
            rcases hcd : env.CommitData (env.TxnReceived w (env.TxHash txn.Transaction) txn)
                with ⟨_ | e2, w3⟩ <;>
            simp [OnTxn, OnTxn.body, withDataLock, Handler.run, syncingAndNotRequested,
      notFromSyncPeer,
              hs, hq, hl, hp, hid, hr, hcd] at hgo <;>
            subst hgo <;>
            simp [hs, *]
          · simp [OnTxn, OnTxn.body, withDataLock, Handler.run, syncingAndNotRequested,
      notFromSyncPeer,
              hs, hq, hl, hp, hid] at hgo
            subst hgo
            simp [hs, *]

/-- Witness for C13: in steady state the transaction 101 is a false positive (counted
once), the transaction 102 is not (not counted). -/
theorem OnTxn_false_positive_count_witness :
    ((OnTxn simEnv { id := 1 } { Transaction := { payload := 101 } }).run
        simSteady).calls.count (Call.handleFPositive 1) = 1 ∧
    ((OnTxn simEnv { id := 1 } { Transaction := { payload := 102 } }).run
        simSteady).calls.count (Call.handleFPositive 1) = 0 :=
  ⟨(OnTxn_false_positive_count simEnv { id := 1 } { Transaction := { payload := 101 } }
      simSteady).2.trans (if_pos ⟨rfl, rfl, rfl⟩),
   (OnTxn_false_positive_count simEnv { id := 1 } { Transaction := { payload := 102 } }
      simSteady).2.trans (if_neg (by decide))⟩

/-! ## The data lock -/

set_option maxHeartbeats 1000000 in
/-- Every run of `OnMerkleBlock` takes the data lock first, releases it last, and does
each exactly once. -/
theorem OnMerkleBlock_holds_data_lock {ρ : Type} (env : Collaborators ρ) (peer : Peer)
    (block : MerkleBlock) (w : Wallet ρ) :
    ((OnMerkleBlock env peer block).run w).calls.head? = some Call.dataLockLock ∧
    ((OnMerkleBlock env peer block).run w).calls.getLast? = some Call.dataLockUnlock ∧
    ((OnMerkleBlock env peer block).run w).calls.count Call.dataLockLock = 1 ∧
    ((OnMerkleBlock env peer block).run w).calls.count Call.dataLockUnlock = 1 := by
  generalize hgo : (OnMerkleBlock env peer block).run w = o
  cases hk : env.IsKnownBlock w (env.HeaderHash block.BlockHeader)
  · cases hpow : env.CheckProofOfWork w block.BlockHeader
    · cases hs : env.IsSyncing w
      · by_cases htip : env.HeaderHash (env.ChainTip w) = env.HeaderHash block.BlockHeader
        · simp [OnMerkleBlock, OnMerkleBlock.body, withDataLock, Handler.run, syncingAndNotRequested,
      notFromSyncPeer,
            hk, hpow, hs, htip] at hgo
          subst hgo
          simp
        · by_cases hprev : env.HeaderHash (env.ChainTip w) = block.BlockHeader.Previous
          · have hne : block.BlockHeader.Previous ≠ env.HeaderHash block.BlockHeader :=
              hprev ▸ htip
            simp [OnMerkleBlock, OnMerkleBlock.body, withDataLock, Handler.run, syncingAndNotRequested,
      notFromSyncPeer,
              hk, hpow, hs, hne, hprev] at hgo
            subst hgo
            simp
          · simp [OnMerkleBlock, OnMerkleBlock.body, withDataLock, Handler.run, syncingAndNotRequested,
      notFromSyncPeer,
              hk, hpow, hs, htip, hprev] at hgo
            subst hgo
            simp
      · cases hq : env.InRequestQueue w (env.HeaderHash block.BlockHeader)
        · simp [OnMerkleBlock, OnMerkleBlock.body, withDataLock, Handler.run, syncingAndNotRequested,
      notFromSyncPeer,
            hk, hpow, hs, hq] at hgo
          subst hgo
          simp
        · cases hl : w.blockLocator
          · simp [OnMerkleBlock, OnMerkleBlock.body, withDataLock, Handler.run, syncingAndNotRequested,
      notFromSyncPeer,
              hk, hpow, hs, hq, hl] at hgo
            subst hgo
            simp
          · cases hp : env.GetSyncPeer w
            · simp [OnMerkleBlock, OnMerkleBlock.body, withDataLock, Handler.run, syncingAndNotRequested,
      notFromSyncPeer,
                hk, hpow, hs, hq, hl, hp] at hgo
              subst hgo
              simp
            · rename_i locator syncPeer
              by_cases hid : syncPeer.ID = peer.ID
              · simp [OnMerkleBlock, OnMerkleBlock.body, withDataLock, Handler.run, syncingAndNotRequested,
      notFromSyncPeer,
                  hk, hpow, hs, hq, hl, hp, hid] at hgo
                subst hgo
                simp
              · simp [OnMerkleBlock, OnMerkleBlock.body, withDataLock, Handler.run, syncingAndNotRequested,
      notFromSyncPeer,
                  hk, hpow, hs, hq, hl, hp, hid] at hgo
                subst hgo
                simp
    · simp [OnMerkleBlock, OnMerkleBlock.body, withDataLock, Handler.run, syncingAndNotRequested,
      notFromSyncPeer,
        hk, hpow] at hgo
      subst hgo
      simp
  · simp [OnMerkleBlock, OnMerkleBlock.body, withDataLock, Handler.run, syncingAndNotRequested,
      notFromSyncPeer,
      hk] at hgo
    subst hgo
    simp

set_option maxHeartbeats 1000000 in
/-- Every run of `OnTxn` takes the data lock first, releases it last, and does each
exactly once. -/
theorem OnTxn_holds_data_lock {ρ : Type} (env : Collaborators ρ) (peer : Peer)
    (txn : Txn) (w : Wallet ρ) :
    ((OnTxn env peer txn).run w).calls.head? = some Call.dataLockLock ∧
    ((OnTxn env peer txn).run w).calls.getLast? = some Call.dataLockUnlock ∧
    ((OnTxn env peer txn).run w).calls.count Call.dataLockLock = 1 ∧
    ((OnTxn env peer txn).run w).calls.count Call.dataLockUnlock = 1 := by
  generalize hgo : (OnTxn env peer txn).run w = o
  cases hs : env.IsSyncing w
  · cases hc : env.TxCached w (env.TxHash txn.Transaction)
    · rcases hcu : env.CommitUnconfirmedTxn w txn.Transaction with ⟨⟨fp, _ | ce⟩, w2⟩
      · cases fp
        · cases hr : env.RequestFinished (env.TxnReceived w2 (env.TxHash txn.Transaction) txn) <;>
          rcases hcd : env.CommitData (env.TxnReceived w2 (env.TxHash txn.Transaction) txn)
              with ⟨_ | e2, w3⟩ <;>
          simp [OnTxn, OnTxn.body, withDataLock, Handler.run, syncingAndNotRequested,
      notFromSyncPeer,
            hs, hc, hcu, hr, hcd] at hgo <;>
          subst hgo <;>
          simp
        · cases hr : env.RequestFinished (env.TxnReceived (env.handleFPositive w2 1) (env.TxHash txn.Transaction) txn) <;>
          rcases hcd : env.CommitData (env.TxnReceived (env.handleFPositive w2 1) (env.TxHash txn.Transaction) txn)
              with ⟨_ | e2, w3⟩ <;>
          simp [OnTxn, OnTxn.body, withDataLock, Handler.run, syncingAndNotRequested,
      notFromSyncPeer,
            hs, hc, hcu, hr, hcd] at hgo <;>
          subst hgo <;>
          simp
      · simp [OnTxn, OnTxn.body, withDataLock, Handler.run, syncingAndNotRequested,
      notFromSyncPeer,
          hs, hc, hcu] at hgo
        subst hgo
        simp
    · simp [OnTxn, OnTxn.body, withDataLock, Handler.run, syncingAndNotRequested,
      notFromSyncPeer,
        hs, hc] at hgo
      subst hgo
      simp
  · cases hq : env.InRequestQueue w (env.TxHash txn.Transaction)
    · simp [OnTxn, OnTxn.body, withDataLock, Handler.run, syncingAndNotRequested,
      notFromSyncPeer,
        hs, hq] at hgo
      subst hgo
      simp
    · cases hl : w.blockLocator
      · simp [OnTxn, OnTxn.body, withDataLock, Handler.run, syncingAndNotRequested,
      notFromSyncPeer,
          hs, hq, hl] at hgo
        subst hgo
        simp
      · cases hp : env.GetSyncPeer w
        · simp [OnTxn, OnTxn.body, withDataLock, Handler.run, syncingAndNotRequested,
      notFromSyncPeer,
            hs, hq, hl, hp] at hgo
          subst hgo
          simp
        · rename_i locator syncPeer
          by_cases hid : syncPeer.ID = peer.ID
          · cases hr : env.RequestFinished (env.TxnReceived w (env.TxHash txn.Transaction) txn) <;>
            rcases hcd : env.CommitData (env.TxnReceived w (env.TxHash txn.Transaction) txn)
                with ⟨_ | e2, w3⟩ <;>
            simp [OnTxn, OnTxn.body, withDataLock, Handler.run, syncingAndNotRequested,
      notFromSyncPeer,
              hs, hq, hl, hp, hid, hr, hcd] at hgo <;>
            subst hgo <;>
            simp
          · simp [OnTxn, OnTxn.body, withDataLock, Handler.run, syncingAndNotRequested,
      notFromSyncPeer,
              hs, hq, hl, hp, hid] at hgo
            subst hgo
            simp

/-- C15 (the code departs from it in `OnNotFound`): in every run, `OnMerkleBlock` and
`OnTxn` take the data lock as their first call and release it as their last call, each
exactly once, on every return path; `OnNotFound` never takes or releases the data lock,
yet it invokes `ChangeSyncPeerAndRestart` and leaves the wallet that call produced. -/
theorem data_lock_discipline {ρ : Type} (env : Collaborators ρ) (peer : Peer)
    (block : MerkleBlock) (txn : Txn) (msg : NotFound) (w : Wallet ρ) :
    (((OnMerkleBlock env peer block).run w).calls.head? = some Call.dataLockLock ∧
     ((OnMerkleBlock env peer block).run w).calls.getLast? = some Call.dataLockUnlock ∧
     ((OnMerkleBlock env peer block).run w).calls.count Call.dataLockLock = 1 ∧
     ((OnMerkleBlock env peer block).run w).calls.count Call.dataLockUnlock = 1) ∧
    (((OnTxn env peer txn).run w).calls.head? = some Call.dataLockLock ∧
     ((OnTxn env peer txn).run w).calls.getLast? = some Call.dataLockUnlock ∧
     ((OnTxn env peer txn).run w).calls.count Call.dataLockLock = 1 ∧
     ((OnTxn env peer txn).run w).calls.count Call.dataLockUnlock = 1) ∧
    (Call.dataLockLock ∉ ((OnNotFound env peer msg).run w).calls ∧
     Call.dataLockUnlock ∉ ((OnNotFound env peer msg).run w).calls ∧
     Call.ChangeSyncPeerAndRestart ∈ ((OnNotFound env peer msg).run w).calls ∧
     ((OnNotFound env peer msg).run w).wallet = env.ChangeSyncPeerAndRestart w) := by
  refine ⟨OnMerkleBlock_holds_data_lock env peer block w, OnTxn_holds_data_lock env peer txn w,
    ?_⟩
  simp [OnNotFound, Handler.run]

end SPVWallet

namespace Sync

/-- C14: for every chain and every `updateFilter` callback, `NewDefaultConfig` returns a
`Config` with `MinPeersForSync = 3`, `MaxPeers = 125`, `Chain` equal to the given chain and
`UpdateFilter` equal to the given callback. -/
theorem NewDefaultConfig_fields {χ φ : Type} (chain : χ) (updateFilter : Unit → φ) :
    (NewDefaultConfig chain updateFilter).MinPeersForSync = 3 ∧
    (NewDefaultConfig chain updateFilter).MaxPeers = 125 ∧
    (NewDefaultConfig chain updateFilter).Chain = chain ∧
    (NewDefaultConfig chain updateFilter).UpdateFilter = updateFilter :=
  ⟨rfl, rfl, rfl, rfl⟩

end Sync

/-! ## Lemmas on the database model -/

namespace Store

theorem DB.Get_Delete (db : DB) (key key2 : Bytes) :
    DB.Get (DB.Delete db key) key2 = if key = key2 then none else DB.Get db key2 := by
  induction db with
  | nil => simp [DB.Delete, DB.Get]
  | cons entry rest ih =>
    obtain ⟨k, v⟩ := entry
    simp only [DB.Delete] at ih
    by_cases hk : k = key <;> by_cases h2 : key = key2 <;> by_cases h3 : k = key2 <;>
      simp_all [DB.Delete, DB.Get, List.filter_cons]

theorem DB.Get_Put (db : DB) (key value key2 : Bytes) :
    DB.Get (DB.Put db key value) key2 = if key = key2 then some value else DB.Get db key2 := by
  by_cases h : key = key2
  · simp [DB.Put, DB.Get, h]
  · simp [DB.Put, DB.Get, h, DB.Get_Delete]

theorem DB.Write_nil (db : DB) : DB.Write db [] = db := rfl

theorem DB.Write_cons (db : DB) (op : BatchOp) (b : Batch) :
    DB.Write db (op :: b) = DB.Write (DB.apply db op) b := rfl

theorem DB.Write_append (db : DB) (b1 b2 : Batch) :
    DB.Write db (b1 ++ b2) = DB.Write (DB.Write db b1) b2 := by
  simp [DB.Write, List.foldl_append]

theorem bytesToUint32_uint32toBytes (n : Nat) (h : n < 4294967296) :
    bytesToUint32 (uint32toBytes n) = n := by
  simp only [bytesToUint32, uint32toBytes, List.getD_cons_zero, List.getD_cons_succ]
  omega

theorem uint32toBytes_injective (m n : Nat) (hm : m < 4294967296) (hn : n < 4294967296)
    (h : uint32toBytes m = uint32toBytes n) : m = n := by
  rw [← bytesToUint32_uint32toBytes m hm, ← bytesToUint32_uint32toBytes n hn, h]

theorem length_uint32toBytes (n : Nat) : (uint32toBytes n).length = 4 := rfl

theorem length_getIndex (n : Nat) : (getIndex n).length = 5 := rfl

theorem getIndex_ne_position (n : Nat) : getIndex n ≠ BKTArbPosition := by
  simp [getIndex, toKey, BKTArbiters, BKTArbPosition, uint32toBytes]

theorem sum_ne_position (sha : Sha256) (data : Bytes) : sha.Sum256 data ≠ BKTArbPosition := by
  intro h
  have := sha.size data
  rw [h] at this
  simp [BKTArbPosition] at this

theorem sum_ne_getIndex (sha : Sha256) (data : Bytes) (n : Nat) :
    sha.Sum256 data ≠ getIndex n := by
  intro h
  have := sha.size data
  rw [h, length_getIndex] at this
  omega

theorem Uint256FromBytes_sum (sha : Sha256) (data : Bytes) :
    Uint256FromBytes (sha.Sum256 data) = Except.ok (sha.Sum256 data) := by
  simp [Uint256FromBytes, sha.size]

/-! ## Lemmas on records of 33-byte keys -/


theorem length_flatten_keys (keys : List Bytes) (hk : ∀ k ∈ keys, k.length = 33) :
    keys.flatten.length = 33 * keys.length := by
  induction keys with
  | nil => rfl
  | cons k ks ih =>
    have h1 : k.length = 33 := hk k (List.mem_cons_self k ks)
    have h2 : ∀ x ∈ ks, x.length = 33 := fun x hx => hk x (List.mem_cons_of_mem k hx)
    simp only [List.flatten_cons, List.length_append, List.length_cons, ih h2, h1]
    omega

theorem drop_flatten_keys (keys : List Bytes) (hk : ∀ k ∈ keys, k.length = 33) (n : Nat) :
    keys.flatten.drop (n * 33) = (keys.drop n).flatten := by
  induction n generalizing keys with
  | zero => simp
  | succ n ih =>
    cases keys with
    | nil => simp
    | cons k ks =>
      have h1 : k.length = 33 := hk k (List.mem_cons_self k ks)
      have h2 : ∀ x ∈ ks, x.length = 33 := fun x hx => hk x (List.mem_cons_of_mem k hx)
      have h3 : (n + 1) * 33 = k.length + n * 33 := by omega
      rw [List.flatten_cons, h3, List.drop_append, ih ks h2, List.drop_succ_cons]

theorem slice_key (keys : List Bytes) (hk : ∀ k ∈ keys, k.length = 33) (c n : Nat)
    (k : Bytes) (rest : List Bytes) (hdrop : keys.drop n = k :: rest) :
    ((c :: keys.flatten).take ((n + 1) * 33 + 1)).drop (n * 33 + 1) = k := by
  have hmem : k ∈ keys := List.mem_of_mem_drop (hdrop ▸ List.mem_cons_self k rest)
  have h1 : k.length = 33 := hk k hmem
  have h2 : (n + 1) * 33 = n * 33 + 33 := by omega
  rw [List.take_succ_cons, List.drop_succ_cons, h2, ← List.take_drop,
    drop_flatten_keys keys hk n, hdrop, List.flatten_cons]
  exact List.take_left' h1

theorem loop_getValueBytes (keys : List Bytes) (hk : ∀ k ∈ keys, k.length = 33)
    (c crclen : Nat) (n : Nat) (hn : n ≤ keys.length) :
    Arbiters.get.loop (c :: keys.flatten) crclen n
      = ((keys.take n).take ((crclen + 255) % 256 + 1),
         (keys.take n).drop ((crclen + 255) % 256 + 1)) := by
  induction n with
  | zero => simp [Arbiters.get.loop]
  | succ n ih =>
    have hlt : n < keys.length := hn
    obtain ⟨k, rest, hdrop⟩ : ∃ k rest, keys.drop n = k :: rest := by
      cases hd : keys.drop n with
      | nil =>
        have := List.drop_eq_nil_iff.mp hd
        omega
      | cons k rest => exact ⟨k, rest, rfl⟩
    have hslice := slice_key keys hk c n k rest hdrop
    have htake : keys.take (n + 1) = keys.take n ++ [k] := by
      rw [List.take_add, hdrop]; rfl
    have hlen : (keys.take n).length = n := by
      rw [List.length_take]; omega
    have ih2 := ih (by omega)
    unfold Arbiters.get.loop at ih2 ⊢
    rw [List.range_succ, List.foldl_append, ih2]
    simp only [List.foldl_cons, List.foldl_nil, hslice, htake]
    by_cases hle : n ≤ (crclen + 255) % 256
    · rw [if_pos hle]
      have e1 : List.take ((crclen + 255) % 256 + 1) (List.take n keys) = List.take n keys :=
        List.take_of_length_le (by omega)
      have e2 : List.take ((crclen + 255) % 256 + 1) (List.take n keys ++ [k])
          = List.take n keys ++ [k] :=
        List.take_of_length_le (by simp; omega)
      have e3 : List.drop ((crclen + 255) % 256 + 1) (List.take n keys) = [] :=
        List.drop_of_length_le (by omega)
      have e4 : List.drop ((crclen + 255) % 256 + 1) (List.take n keys ++ [k]) = [] :=
        List.drop_of_length_le (by simp; omega)
      rw [e1, e2, e3, e4]
    · rw [if_neg hle]
      have e1 : List.take ((crclen + 255) % 256 + 1) (List.take n keys ++ [k])
          = List.take ((crclen + 255) % 256 + 1) (List.take n keys) :=
        List.take_append_of_le_length (by omega)
      have e2 : List.drop ((crclen + 255) % 256 + 1) (List.take n keys ++ [k])
          = List.drop ((crclen + 255) % 256 + 1) (List.take n keys) ++ [k] :=
        List.drop_append_of_le_length (by omega)
      rw [e1, e2]

theorem decode_getValueBytes (keys : List Bytes) (hk : ∀ k ∈ keys, k.length = 33)
    (crclen : Nat) :
    Arbiters.get.decode (getValueBytes keys crclen)
      = GetResult.ok (keys.take ((crclen % 256 + 255) % 256 + 1))
          (keys.drop ((crclen % 256 + 255) % 256 + 1)) := by
  have hlen : ((crclen % 256 :: keys.flatten).length - 1) / 33 = keys.length := by
    simp [length_flatten_keys keys hk]
  simp only [Arbiters.get.decode, getValueBytes, ReadUint8, Arbiters.get.split, hlen,
    loop_getValueBytes keys hk (crclen % 256) (crclen % 256) keys.length (le_refl _),
    List.take_length, Nat.mod_mod]

theorem length_getValueBytes (keys : List Bytes) (hk : ∀ k ∈ keys, k.length = 33)
    (crclen : Nat) : (getValueBytes keys crclen).length = 33 * keys.length + 1 := by
  simp [getValueBytes, length_flatten_keys keys hk]

/-! ## A single `Put` on a fresh store -/


/-- The store after the first successful `Put` on a fresh store: the batch holds the
position, the record and the digest entry, the database is the batch written to the
empty database, the cache holds the digest. -/
theorem Put_fresh (sha : Sha256) (height : Nat) (crcArbiters normalArbiters : List Bytes)
    (hpos : 0 < height) :
    (NewArbiters []).Put sha height crcArbiters normalArbiters
      = (none,
         { db := DB.Write []
             [BatchOp.put BKTArbPosition (uint32toBytes height),
              BatchOp.put (getIndex height)
                (getValueBytes (crcArbiters ++ normalArbiters) (crcArbiters.length % 256)),
              BatchOp.put
                (sha.Sum256 (getValueBytes (sortSlice (crcArbiters ++ normalArbiters))
                  (crcArbiters.length % 256)))
                (uint32toBytes height)]
           b := [BatchOp.put BKTArbPosition (uint32toBytes height),
              BatchOp.put (getIndex height)
                (getValueBytes (crcArbiters ++ normalArbiters) (crcArbiters.length % 256)),
              BatchOp.put
                (sha.Sum256 (getValueBytes (sortSlice (crcArbiters ++ normalArbiters))
                  (crcArbiters.length % 256)))
                (uint32toBytes height)]
           cache := [(sha.Sum256 (getValueBytes (sortSlice (crcArbiters ++ normalArbiters))
                  (crcArbiters.length % 256)), height)]
           readErrors := [] }) := by
  have hnot : ¬ height ≤ 0 := by omega
  simp [Arbiters.Put, Arbiters.batchPut, NewArbiters, Arbiters.getCurrentPosition,
    Arbiters.dbGet, readError, DB.Get, Uint256FromBytes_sum, Cache.lookup, Cache.store,
    Batch.Put, hnot]

/-- Reading the record of the height just stored on a fresh store. -/
theorem get_after_Put_fresh (sha : Sha256) (height : Nat)
    (crcArbiters normalArbiters : List Bytes) (hpos : 0 < height)
    (hkeys : ∀ k ∈ crcArbiters ++ normalArbiters, k.length = 33) :
    ((NewArbiters []).Put sha height crcArbiters normalArbiters).2.get height
      = Arbiters.get.decode
          (getValueBytes (crcArbiters ++ normalArbiters) (crcArbiters.length % 256)) := by
  have hlen := length_getValueBytes (crcArbiters ++ normalArbiters) hkeys
    (crcArbiters.length % 256)
  have hne4 : (getValueBytes (crcArbiters ++ normalArbiters) (crcArbiters.length % 256)).length
      ≠ 4 := by omega
  rw [Put_fresh sha height crcArbiters normalArbiters hpos]
  simp [Arbiters.get, Arbiters.dbGet, readError, DB.Write, DB.apply, DB.Get_Put,
    sum_ne_getIndex, hne4]

/-- C16: round trip on a fresh store.  For every height above 0 and all lists
`crcArbiters`, `normalArbiters` of 33-byte keys with `1 <= len(crcArbiters) <= 255`,
`Put(height, crcArbiters, normalArbiters)` on an empty arbiters store succeeds, and
afterwards both `GetByHeight(height)` and `Get()` return exactly `crcArbiters` and
`normalArbiters`, in the same order, with no error. -/
theorem Put_then_get_on_fresh_store (sha : Sha256) (height : Nat)
    (crcArbiters normalArbiters : List Bytes)
    (hpos : 0 < height) (hheight : height < 4294967296)
    (hcrc : ∀ k ∈ crcArbiters, k.length = 33)
    (hnormal : ∀ k ∈ normalArbiters, k.length = 33)
    (hone : 1 ≤ crcArbiters.length) (hmax : crcArbiters.length ≤ 255) :
    ((NewArbiters []).Put sha height crcArbiters normalArbiters).1 = none ∧
    ((NewArbiters []).Put sha height crcArbiters normalArbiters).2.GetByHeight height
      = GetResult.ok crcArbiters normalArbiters ∧
    ((NewArbiters []).Put sha height crcArbiters normalArbiters).2.Get
      = GetResult.ok crcArbiters normalArbiters := by
  have hkeys : ∀ k ∈ crcArbiters ++ normalArbiters, k.length = 33 := by
    intro k hk
    rcases List.mem_append.mp hk with h | h
    · exact hcrc k h
    · exact hnormal k h
  have hcount : (crcArbiters.length % 256 % 256 + 255) % 256 + 1 = crcArbiters.length := by
    omega
  have hdecode : Arbiters.get.decode
      (getValueBytes (crcArbiters ++ normalArbiters) (crcArbiters.length % 256))
      = GetResult.ok crcArbiters normalArbiters := by
    rw [decode_getValueBytes _ hkeys, hcount, List.take_left, List.drop_left]
  have hposition :
      ((NewArbiters []).Put sha height crcArbiters normalArbiters).2.getCurrentPosition
        = height := by
    rw [Put_fresh sha height crcArbiters normalArbiters hpos]
    simp [Arbiters.getCurrentPosition, Arbiters.dbGet, readError, DB.Write, DB.apply,
      DB.Get_Put, sum_ne_position, getIndex_ne_position,
      bytesToUint32_uint32toBytes height hheight]
  refine ⟨?_, ?_, ?_⟩
  · rw [Put_fresh sha height crcArbiters normalArbiters hpos]
  · rw [Arbiters.GetByHeight, get_after_Put_fresh sha height _ _ hpos hkeys, hdecode]
  · rw [Arbiters.Get, hposition, get_after_Put_fresh sha height _ _ hpos hkeys, hdecode]

/-- Witness for C16: one CRC key and two normal keys stored at height 7. -/
theorem Put_then_get_on_fresh_store_witness :
    ((NewArbiters []).Put simSha 7 [keyA] [keyB, keyC]).1 = none ∧
    ((NewArbiters []).Put simSha 7 [keyA] [keyB, keyC]).2.GetByHeight 7
      = GetResult.ok [keyA] [keyB, keyC] ∧
    ((NewArbiters []).Put simSha 7 [keyA] [keyB, keyC]).2.Get
      = GetResult.ok [keyA] [keyB, keyC] :=
  Put_then_get_on_fresh_store simSha 7 [keyA] [keyB, keyC] (by decide) (by decide)
    (by decide) (by decide) (by decide) (by decide)

/-- C17 (the code departs from it for a count byte of 0): for every digest, after
`Put(1, [], [keyB])` on a fresh store `GetByHeight(1)` returns `keyB` as a CRC arbiter and
no normal arbiter, although it was stored as a normal arbiter with an empty CRC list. -/
theorem GetByHeight_after_Put_with_empty_crc (sha : Sha256) :
    ((NewArbiters []).Put sha 1 [] [keyB]).1 = none ∧
    ((NewArbiters []).Put sha 1 [] [keyB]).2.GetByHeight 1 = GetResult.ok [keyB] [] := by
  have hkeys : ∀ k ∈ ([] : List Bytes) ++ [keyB], k.length = 33 := by
    intro k hk
    simp at hk
    subst hk
    rfl
  refine ⟨?_, ?_⟩
  · rw [Put_fresh sha 1 [] [keyB] (by decide)]
  · rw [Arbiters.GetByHeight, get_after_Put_fresh sha 1 _ _ (by decide) hkeys,
      decode_getValueBytes _ hkeys]
    rfl

end Store

/-! ## The outcomes of `Put` -/

namespace Store

theorem Put_rejected (sha : Sha256) (c : Arbiters) (height : Nat)
    (crcArbiters normalArbiters : List Bytes) (hle : height ≤ c.getCurrentPosition) :
    c.Put sha height crcArbiters normalArbiters
      = (some "height must be bigger than existed position", c) := by
  simp [Arbiters.Put, Arbiters.batchPut, hle]

theorem Put_cached (sha : Sha256) (c : Arbiters) (height : Nat)
    (crcArbiters normalArbiters : List Bytes) (val : Nat)
    (hgt : ¬ height ≤ c.getCurrentPosition)
    (hcache : c.cache.lookup (sha.Sum256 (getValueBytes
      (sortSlice (crcArbiters ++ normalArbiters)) (crcArbiters.length % 256))) = some val) :
    c.Put sha height crcArbiters normalArbiters
      = (none,
         { c with
           b := c.b ++ [BatchOp.put BKTArbPosition (uint32toBytes height),
                        BatchOp.put (getIndex height) (uint32toBytes val)]
           db := DB.Write c.db
                  (c.b ++ [BatchOp.put BKTArbPosition (uint32toBytes height),
                           BatchOp.put (getIndex height) (uint32toBytes val)]) }) := by
  simp [Arbiters.Put, Arbiters.batchPut, hgt, hcache, Uint256FromBytes_sum, Batch.Put]

theorem Put_known (sha : Sha256) (c : Arbiters) (height : Nat)
    (crcArbiters normalArbiters : List Bytes) (existHeight : Bytes)
    (hgt : ¬ height ≤ c.getCurrentPosition)
    (hcache : c.cache.lookup (sha.Sum256 (getValueBytes
      (sortSlice (crcArbiters ++ normalArbiters)) (crcArbiters.length % 256))) = none)
    (hdb : c.dbGet (sha.Sum256 (getValueBytes
      (sortSlice (crcArbiters ++ normalArbiters)) (crcArbiters.length % 256)))
        = ReadResult.found existHeight) :
    c.Put sha height crcArbiters normalArbiters
      = (none,
         { b := c.b ++ [BatchOp.put BKTArbPosition (uint32toBytes height)]
           db := DB.Write (DB.Put c.db (getIndex height) existHeight)
                  (c.b ++ [BatchOp.put BKTArbPosition (uint32toBytes height)])
           cache := c.cache.store (sha.Sum256 (getValueBytes
              (sortSlice (crcArbiters ++ normalArbiters)) (crcArbiters.length % 256)))
              (bytesToUint32 existHeight)
           readErrors := c.readErrors }) := by
  simp [Arbiters.Put, Arbiters.batchPut, hgt, hcache, hdb, Uint256FromBytes_sum, Batch.Put]

theorem Put_new (sha : Sha256) (c : Arbiters) (height : Nat)
    (crcArbiters normalArbiters : List Bytes)
    (hgt : ¬ height ≤ c.getCurrentPosition)
    (hcache : c.cache.lookup (sha.Sum256 (getValueBytes
      (sortSlice (crcArbiters ++ normalArbiters)) (crcArbiters.length % 256))) = none)
    (hdb : c.dbGet (sha.Sum256 (getValueBytes
      (sortSlice (crcArbiters ++ normalArbiters)) (crcArbiters.length % 256)))
        = ReadResult.notFound) :
    c.Put sha height crcArbiters normalArbiters
      = (none,
         { b := c.b ++ [BatchOp.put BKTArbPosition (uint32toBytes height),
                BatchOp.put (getIndex height)
                  (getValueBytes (crcArbiters ++ normalArbiters) (crcArbiters.length % 256)),
                BatchOp.put (sha.Sum256 (getValueBytes
                  (sortSlice (crcArbiters ++ normalArbiters)) (crcArbiters.length % 256)))
                  (uint32toBytes height)]
           db := DB.Write c.db
              (c.b ++ [BatchOp.put BKTArbPosition (uint32toBytes height),
                BatchOp.put (getIndex height)
                  (getValueBytes (crcArbiters ++ normalArbiters) (crcArbiters.length % 256)),
                BatchOp.put (sha.Sum256 (getValueBytes
                  (sortSlice (crcArbiters ++ normalArbiters)) (crcArbiters.length % 256)))
                  (uint32toBytes height)])
           cache := c.cache.store (sha.Sum256 (getValueBytes
              (sortSlice (crcArbiters ++ normalArbiters)) (crcArbiters.length % 256)))
              height
           readErrors := c.readErrors }) := by
  simp [Arbiters.Put, Arbiters.batchPut, hgt, hcache, hdb, Uint256FromBytes_sum, Batch.Put]

/-- A failing read of the digest: `Put` returns that error after the position record was
added to the batch; nothing is written. -/
theorem Put_failed (sha : Sha256) (c : Arbiters) (height : Nat)
    (crcArbiters normalArbiters : List Bytes) (err : GoError)
    (hgt : ¬ height ≤ c.getCurrentPosition)
    (hcache : c.cache.lookup (sha.Sum256 (getValueBytes
      (sortSlice (crcArbiters ++ normalArbiters)) (crcArbiters.length % 256))) = none)
    (hdb : c.dbGet (sha.Sum256 (getValueBytes
      (sortSlice (crcArbiters ++ normalArbiters)) (crcArbiters.length % 256)))
        = ReadResult.failed err) :
    c.Put sha height crcArbiters normalArbiters
      = (some err,
         { c with b := c.b ++ [BatchOp.put BKTArbPosition (uint32toBytes height)] }) := by
  simp [Arbiters.Put, Arbiters.batchPut, hgt, hcache, hdb, Uint256FromBytes_sum, Batch.Put]

theorem getCurrentPosition_of_Get (c : Arbiters) (pos : Bytes)
    (herr : readError c.readErrors BKTArbPosition = none)
    (h : c.db.Get BKTArbPosition = some pos) : c.getCurrentPosition = bytesToUint32 pos := by
  simp [Arbiters.getCurrentPosition, Arbiters.dbGet, herr, h]

/-- The four ways a `Put` above the position can end. -/
theorem Put_cases (sha : Sha256) (c : Arbiters) (height : Nat)
    (crcArbiters normalArbiters : List Bytes) (hgt : ¬ height ≤ c.getCurrentPosition) :
    (∃ val, c.cache.lookup (arbitersDigest sha crcArbiters normalArbiters) = some val ∧
      c.Put sha height crcArbiters normalArbiters
        = (none,
           { c with
             b := c.b ++ [BatchOp.put BKTArbPosition (uint32toBytes height),
                          BatchOp.put (getIndex height) (uint32toBytes val)]
             db := DB.Write c.db
                    (c.b ++ [BatchOp.put BKTArbPosition (uint32toBytes height),
                             BatchOp.put (getIndex height) (uint32toBytes val)]) })) ∨
    (∃ existHeight, c.cache.lookup (arbitersDigest sha crcArbiters normalArbiters) = none ∧
      c.dbGet (arbitersDigest sha crcArbiters normalArbiters) = ReadResult.found existHeight ∧
      c.Put sha height crcArbiters normalArbiters
        = (none,
           { b := c.b ++ [BatchOp.put BKTArbPosition (uint32toBytes height)]
             db := DB.Write (DB.Put c.db (getIndex height) existHeight)
                    (c.b ++ [BatchOp.put BKTArbPosition (uint32toBytes height)])
             cache := c.cache.store (arbitersDigest sha crcArbiters normalArbiters)
                (bytesToUint32 existHeight)
             readErrors := c.readErrors })) ∨
    (c.cache.lookup (arbitersDigest sha crcArbiters normalArbiters) = none ∧
      c.dbGet (arbitersDigest sha crcArbiters normalArbiters) = ReadResult.notFound ∧
      c.Put sha height crcArbiters normalArbiters
        = (none,
           { b := c.b ++ [BatchOp.put BKTArbPosition (uint32toBytes height),
                  BatchOp.put (getIndex height)
                    (getValueBytes (crcArbiters ++ normalArbiters) (crcArbiters.length % 256)),
                  BatchOp.put (arbitersDigest sha crcArbiters normalArbiters)
                    (uint32toBytes height)]
             db := DB.Write c.db
                (c.b ++ [BatchOp.put BKTArbPosition (uint32toBytes height),
                  BatchOp.put (getIndex height)
                    (getValueBytes (crcArbiters ++ normalArbiters) (crcArbiters.length % 256)),
                  BatchOp.put (arbitersDigest sha crcArbiters normalArbiters)
                    (uint32toBytes height)])
             cache := c.cache.store (arbitersDigest sha crcArbiters normalArbiters) height
             readErrors := c.readErrors })) ∨
    (∃ err, c.cache.lookup (arbitersDigest sha crcArbiters normalArbiters) = none ∧
      c.dbGet (arbitersDigest sha crcArbiters normalArbiters) = ReadResult.failed err ∧
      c.Put sha height crcArbiters normalArbiters
        = (some err,
           { c with b := c.b ++ [BatchOp.put BKTArbPosition (uint32toBytes height)] })) := by
  unfold arbitersDigest
  cases hcache : c.cache.lookup (sha.Sum256 (getValueBytes
      (sortSlice (crcArbiters ++ normalArbiters)) (crcArbiters.length % 256))) with
  | some val => exact Or.inl ⟨val, rfl, Put_cached sha c height _ _ val hgt hcache⟩
  | none =>
    cases hdb : c.dbGet (sha.Sum256 (getValueBytes
        (sortSlice (crcArbiters ++ normalArbiters)) (crcArbiters.length % 256))) with
    | found existHeight =>
      exact Or.inr (Or.inl ⟨existHeight, rfl, rfl, Put_known sha c height _ _ _ hgt hcache hdb⟩)
    | notFound =>
      exact Or.inr (Or.inr (Or.inl ⟨rfl, rfl, Put_new sha c height _ _ hgt hcache hdb⟩))
    | failed err =>
      exact Or.inr (Or.inr (Or.inr ⟨err, rfl, rfl, Put_failed sha c height _ _ err hgt hcache hdb⟩))

end Store

/-! ## Position and four-byte values after `Put` -/

namespace Store

theorem isWordKey_getIndex (n : Nat) : isWordKey (getIndex n) = false := by
  simp [isWordKey, getIndex, toKey, BKTArbiters, BKTArbPosition, uint32toBytes]

theorem wordOp_position (n : Nat) : wordOp (BatchOp.put BKTArbPosition (uint32toBytes n)) = true := by
  simp [wordOp, uint32toBytes]

theorem wordOp_index (n : Nat) (value : Bytes) :
    wordOp (BatchOp.put (getIndex n) value) = true := by
  simp [wordOp, isWordKey_getIndex]

theorem wordOp_word (key : Bytes) (n : Nat) :
    wordOp (BatchOp.put key (uint32toBytes n)) = true := by
  simp [wordOp, uint32toBytes]

theorem all_Delete (db : DB) (key : Bytes) (h : db.all wordEntry = true) :
    (DB.Delete db key).all wordEntry = true := by
  rw [List.all_eq_true] at h ⊢
  intro x hx
  exact h x (List.mem_of_mem_filter hx)

theorem all_Put (db : DB) (key value : Bytes) (h : db.all wordEntry = true)
    (hentry : wordEntry (key, value) = true) : (DB.Put db key value).all wordEntry = true := by
  have hdel := all_Delete db key h
  simp only [DB.Put, List.all_cons, hentry, hdel, Bool.and_self]

theorem all_Write (b : Batch) (db : DB) (h : db.all wordEntry = true)
    (hb : b.all wordOp = true) : (DB.Write db b).all wordEntry = true := by
  induction b generalizing db with
  | nil => exact h
  | cons op rest ih =>
    rw [List.all_cons, Bool.and_eq_true] at hb
    rw [DB.Write_cons]
    apply ih _ _ hb.2
    cases op with
    | put key value => exact all_Put db key value h hb.1
    | delete key => exact all_Delete db key h

theorem wordValues_iff (c : Arbiters) :
    c.wordValues = true ↔ c.db.all wordEntry = true ∧ c.b.all wordOp = true := by
  simp [Arbiters.wordValues]

/-- A `Put` leaves the read errors as they are. -/
theorem Put_readErrors (sha : Sha256) (c : Arbiters) (height : Nat)
    (crcArbiters normalArbiters : List Bytes) :
    (c.Put sha height crcArbiters normalArbiters).2.readErrors = c.readErrors := by
  by_cases hle : height ≤ c.getCurrentPosition
  · rw [Put_rejected sha c height _ _ hle]
  · rcases Put_cases sha c height crcArbiters normalArbiters hle with
      ⟨val, _, h⟩ | ⟨existHeight, _, _, h⟩ | ⟨_, _, h⟩ | ⟨err, _, _, h⟩ <;> rw [h]

/-- After a successful `Put` the database holds the height as position, and the values
read with `bytesToUint32` still have four bytes. -/
theorem Put_success (sha : Sha256) (c : Arbiters) (height : Nat)
    (crcArbiters normalArbiters : List Bytes) (hwords : c.wordValues = true)
    (hsucc : (c.Put sha height crcArbiters normalArbiters).1 = none) :
    ¬ height ≤ c.getCurrentPosition ∧
    DB.Get (c.Put sha height crcArbiters normalArbiters).2.db BKTArbPosition
      = some (uint32toBytes height) ∧
    (c.Put sha height crcArbiters normalArbiters).2.wordValues = true := by
  have hgt : ¬ height ≤ c.getCurrentPosition := by
    intro hle
    rw [Put_rejected sha c height _ _ hle] at hsucc
    simp at hsucc
  obtain ⟨hdbw, hbw⟩ := (wordValues_iff c).mp hwords
  refine ⟨hgt, ?_⟩
  rcases Put_cases sha c height crcArbiters normalArbiters hgt with
    ⟨val, _, h⟩ | ⟨existHeight, _, _, h⟩ | ⟨_, _, h⟩ | ⟨err, _, _, h⟩
  · rw [h]
    have hb : (c.b ++ [BatchOp.put BKTArbPosition (uint32toBytes height),
        BatchOp.put (getIndex height) (uint32toBytes val)]).all wordOp = true := by
      simp [List.all_append, hbw, wordOp_position, wordOp_index]
    refine ⟨?_, (wordValues_iff _).mpr ⟨all_Write _ _ hdbw hb, hb⟩⟩
    simp [DB.Write_append, DB.Write_cons, DB.Write_nil, DB.apply, DB.Get_Put,
      getIndex_ne_position]
  · rw [h]
    have hb : (c.b ++ [BatchOp.put BKTArbPosition (uint32toBytes height)]).all wordOp
        = true := by
      simp [List.all_append, hbw, wordOp_position]
    have hdb2 : (DB.Put c.db (getIndex height) existHeight).all wordEntry = true :=
      all_Put _ _ _ hdbw (by simp [wordEntry, isWordKey_getIndex])
    refine ⟨?_, (wordValues_iff _).mpr ⟨all_Write _ _ hdb2 hb, hb⟩⟩
    simp [DB.Write_append, DB.Write_cons, DB.Write_nil, DB.apply, DB.Get_Put]
  · rw [h]
    have hb : (c.b ++ [BatchOp.put BKTArbPosition (uint32toBytes height),
        BatchOp.put (getIndex height)
          (getValueBytes (crcArbiters ++ normalArbiters) (crcArbiters.length % 256)),
        BatchOp.put (arbitersDigest sha crcArbiters normalArbiters)
          (uint32toBytes height)]).all wordOp = true := by
      simp [List.all_append, hbw, wordOp_position, wordOp_index, wordOp_word]
    refine ⟨?_, (wordValues_iff _).mpr ⟨all_Write _ _ hdbw hb, hb⟩⟩
    simp [arbitersDigest, DB.Write_append, DB.Write_cons, DB.Write_nil, DB.apply, DB.Get_Put,
      getIndex_ne_position, sum_ne_position]
  · rw [h] at hsucc
    simp at hsucc

/-- Over a sequence of successful `Put` calls on a store whose position read does not
fail, the heights, which are the positions stored after each call, increase strictly,
starting above the position before. -/
theorem PutAll_positions (sha : Sha256) (reqs : List (Nat × List Bytes × List Bytes)) :
    ∀ (c c2 : Arbiters), c.wordValues = true →
      readError c.readErrors BKTArbPosition = none →
      (∀ r ∈ reqs, r.1 < 4294967296) → c.PutAll sha reqs = some c2 →
      List.Chain (fun a b => a < b) c.getCurrentPosition (reqs.map Prod.fst) ∧
      c2.getCurrentPosition = (reqs.map Prod.fst).getLastD c.getCurrentPosition ∧
      c2.wordValues = true := by
  induction reqs with
  | nil =>
    intro c c2 hw _ _ h
    simp only [Arbiters.PutAll, Option.some.injEq] at h
    subst h
    exact ⟨List.Chain.nil, rfl, hw⟩
  | cons r rest ih =>
    intro c c2 hw herr hr h
    obtain ⟨height, crcArbiters, normalArbiters⟩ := r
    have hheight : height < 4294967296 := hr _ (List.mem_cons_self _ _)
    have hrest : ∀ x ∈ rest, x.1 < 4294967296 := fun x hx => hr x (List.mem_cons_of_mem _ hx)
    rcases hres : c.Put sha height crcArbiters normalArbiters with ⟨err, c1⟩
    rw [Arbiters.PutAll, hres] at h
    cases err with
    | some e => simp at h
    | none =>
      simp only at h
      have hsucc : (c.Put sha height crcArbiters normalArbiters).1 = none := by rw [hres]
      obtain ⟨hgt, hstored, hw1⟩ := Put_success sha c height _ _ hw hsucc
      have herr1 := Put_readErrors sha c height crcArbiters normalArbiters
      rw [hres] at hstored hw1 herr1
      simp only at hstored hw1 herr1
      have herr2 : readError c1.readErrors BKTArbPosition = none := by rw [herr1]; exact herr
      have hpos : c1.getCurrentPosition = height := by
        rw [getCurrentPosition_of_Get c1 _ herr2 hstored,
          bytesToUint32_uint32toBytes height hheight]
      obtain ⟨hchain, hlast, hw2⟩ := ih c1 c2 hw1 herr2 hrest h
      rw [hpos] at hchain hlast
      refine ⟨List.Chain.cons (by omega) hchain, ?_, hw2⟩
      rw [hlast]
      cases rest <;> simp [List.getLastD]

end Store

/-! ## Rejected and accepted heights -/

namespace Store

/-- C19 (as stated, refuted): on the store `simFaulty`, whose database is empty and whose
read of the digest fails, the position is 0 and `Put(1, [keyA], [keyB])` has a height
above it, yet `Put` returns an error, the read error, and the pending batch is no longer
what it was. -/
theorem Put_read_error_above_position :
    simFaulty.getCurrentPosition = 0 ∧
    ¬ (1 ≤ simFaulty.getCurrentPosition) ∧
    (simFaulty.Put simSha 1 [keyA] [keyB]).1 = some "leveldb: i/o error" ∧
    (simFaulty.Put simSha 1 [keyA] [keyB]).2.b ≠ simFaulty.b := by
  decide

/-- C19 (amended): on a store whose position and digest values have four bytes,
`Put(height, crc, normal)` returns an error if and only if `height` is less than or equal
to the position that `getCurrentPosition` reads (0 when none is stored, so height 0 is
always rejected), or the digest of the lists is not in the cache and its read from the
database fails with an error other than not-found, which is then the error returned.  On
the height error the database, the pending batch and the hash cache are unchanged; on a
read error the database and the hash cache are unchanged.  When `Put` succeeds the
position stored in the database equals `height`; where the read of the position does not
fail it is what `getCurrentPosition` returns and is above the position before, so over
every sequence of successful `Put` calls the position increases strictly. -/
theorem Put_error_iff_height_not_above_position (sha : Sha256) (c : Arbiters) (height : Nat)
    (crcArbiters normalArbiters : List Bytes) (hheight : height < 4294967296)
    (hwords : c.wordValues = true) :
    ((c.Put sha height crcArbiters normalArbiters).1 ≠ none ↔
      height ≤ c.getCurrentPosition ∨
      (c.cache.lookup (arbitersDigest sha crcArbiters normalArbiters) = none ∧
       ∃ err, c.dbGet (arbitersDigest sha crcArbiters normalArbiters)
                = ReadResult.failed err)) ∧
    (c.dbGet BKTArbPosition = ReadResult.notFound → c.getCurrentPosition = 0) ∧
    (c.Put sha 0 crcArbiters normalArbiters).1 ≠ none ∧
    (height ≤ c.getCurrentPosition →
      (c.Put sha height crcArbiters normalArbiters).1
        = some "height must be bigger than existed position" ∧
      (c.Put sha height crcArbiters normalArbiters).2.db = c.db ∧
      (c.Put sha height crcArbiters normalArbiters).2.b = c.b ∧
      (c.Put sha height crcArbiters normalArbiters).2.cache = c.cache) ∧
    (∀ err, ¬ height ≤ c.getCurrentPosition →
      c.cache.lookup (arbitersDigest sha crcArbiters normalArbiters) = none →
      c.dbGet (arbitersDigest sha crcArbiters normalArbiters) = ReadResult.failed err →
      (c.Put sha height crcArbiters normalArbiters).1 = some err ∧
      (c.Put sha height crcArbiters normalArbiters).2.db = c.db ∧
      (c.Put sha height crcArbiters normalArbiters).2.cache = c.cache) ∧
    ((c.Put sha height crcArbiters normalArbiters).1 = none →
      DB.Get (c.Put sha height crcArbiters normalArbiters).2.db BKTArbPosition
        = some (uint32toBytes height) ∧
      (c.Put sha height crcArbiters normalArbiters).2.wordValues = true ∧
      (readError c.readErrors BKTArbPosition = none →
        (c.Put sha height crcArbiters normalArbiters).2.getCurrentPosition = height ∧
        c.getCurrentPosition
          < (c.Put sha height crcArbiters normalArbiters).2.getCurrentPosition)) ∧
    (∀ (reqs : List (Nat × List Bytes × List Bytes)) (c2 : Arbiters),
      readError c.readErrors BKTArbPosition = none →
      (∀ r ∈ reqs, r.1 < 4294967296) → c.PutAll sha reqs = some c2 →
      List.Chain (fun a b => a < b) c.getCurrentPosition (reqs.map Prod.fst) ∧
      c2.getCurrentPosition = (reqs.map Prod.fst).getLastD c.getCurrentPosition ∧
      c2.wordValues = true) := by
  have hzero : (c.Put sha 0 crcArbiters normalArbiters).1 ≠ none := by
    rw [Put_rejected sha c 0 _ _ (Nat.zero_le _)]
    simp
  have hnone : c.dbGet BKTArbPosition = ReadResult.notFound → c.getCurrentPosition = 0 := by
    intro h
    simp [Arbiters.getCurrentPosition, h]
  have hsuccess : (c.Put sha height crcArbiters normalArbiters).1 = none →
      DB.Get (c.Put sha height crcArbiters normalArbiters).2.db BKTArbPosition
        = some (uint32toBytes height) ∧
      (c.Put sha height crcArbiters normalArbiters).2.wordValues = true ∧
      (readError c.readErrors BKTArbPosition = none →
        (c.Put sha height crcArbiters normalArbiters).2.getCurrentPosition = height ∧
        c.getCurrentPosition
          < (c.Put sha height crcArbiters normalArbiters).2.getCurrentPosition) := by
    intro hsucc
    obtain ⟨hgt, hstored, hw⟩ := Put_success sha c height _ _ hwords hsucc
    refine ⟨hstored, hw, ?_⟩
    intro herr
    have herr2 : readError (c.Put sha height crcArbiters normalArbiters).2.readErrors
        BKTArbPosition = none := by
      rw [Put_readErrors]; exact herr
    have hpos : (c.Put sha height crcArbiters normalArbiters).2.getCurrentPosition = height := by
      rw [getCurrentPosition_of_Get _ _ herr2 hstored,
        bytesToUint32_uint32toBytes height hheight]
    refine ⟨hpos, ?_⟩
    rw [hpos]
    omega
  have hseq := fun (reqs : List (Nat × List Bytes × List Bytes)) (c2 : Arbiters) =>
    PutAll_positions sha reqs c c2 hwords
  by_cases hle : height ≤ c.getCurrentPosition
  · have hput := Put_rejected sha c height crcArbiters normalArbiters hle
    refine ⟨?_, hnone, hzero, ?_, ?_, hsuccess, hseq⟩
    · simp [hput, hle]
    · intro _
      simp [hput]
    · intro err hgt
      exact absurd hle hgt
  · refine ⟨?_, hnone, hzero, fun h => absurd h hle, ?_, hsuccess, hseq⟩
    · rcases Put_cases sha c height crcArbiters normalArbiters hle with
        ⟨val, hc, h⟩ | ⟨existHeight, hc, hd, h⟩ | ⟨hc, hd, h⟩ | ⟨err, hc, hd, h⟩
      · simp [h, hle, hc]
      · simp [h, hle, hc, hd]
      · simp [h, hle, hc, hd]
      · simp [h, hle, hc, hd]
    · intro err _ hc hd
      rw [Put_failed sha c height _ _ err hle hc hd]
      exact ⟨rfl, rfl, rfl⟩

/-- Witness for C19 (amended): on a store whose position is 5, height 3 is rejected and
leaves the store as it is, height 9 is accepted and becomes the position; on `simFaulty`
the read error of the digest is returned and the database is unchanged. -/
theorem Put_error_iff_height_not_above_position_witness :
    (((NewArbiters []).Put simSha 5 [keyA] [keyB]).2.Put simSha 3 [keyA] [keyC]).1 ≠ none ∧
    (((NewArbiters []).Put simSha 5 [keyA] [keyB]).2.Put simSha 3 [keyA] [keyC]).2.db
      = ((NewArbiters []).Put simSha 5 [keyA] [keyB]).2.db ∧
    (((NewArbiters []).Put simSha 5 [keyA] [keyB]).2.Put simSha 9 [keyA] [keyC]).1 = none ∧
    (((NewArbiters []).Put simSha 5 [keyA] [keyB]).2.Put simSha 9 [keyA]
        [keyC]).2.getCurrentPosition = 9 ∧
    (simFaulty.Put simSha 1 [keyA] [keyB]).1 = some "leveldb: i/o error" ∧
    (simFaulty.Put simSha 1 [keyA] [keyB]).2.db = simFaulty.db :=
  have h3 := Put_error_iff_height_not_above_position simSha
    ((NewArbiters []).Put simSha 5 [keyA] [keyB]).2 3 [keyA] [keyC] (by decide) (by decide)
  have h9 := Put_error_iff_height_not_above_position simSha
    ((NewArbiters []).Put simSha 5 [keyA] [keyB]).2 9 [keyA] [keyC] (by decide) (by decide)
  have hf := Put_error_iff_height_not_above_position simSha simFaulty 1 [keyA] [keyB]
    (by decide) (by decide)
  ⟨h3.1.mpr (Or.inl (by decide)), (h3.2.2.2.1 (by decide)).2.1, by decide,
    ((h9.2.2.2.2.2.1 (by decide)).2.2 (by decide)).1,
    (hf.2.2.2.2.1 "leveldb: i/o error" (by decide) (by decide) (by decide)).1,
    (hf.2.2.2.2.1 "leveldb: i/o error" (by decide) (by decide) (by decide)).2.1⟩

end Store

/-! ## Deduplication and `Clear` -/

namespace Store


theorem mem_sortInsert (a x : Bytes) (l : List Bytes) :
    x ∈ sortInsert a l ↔ x = a ∨ x ∈ l := by
  induction l with
  | nil => simp [sortInsert]
  | cons b rest ih =>
    unfold sortInsert
    split
    · simp only [List.mem_cons, ih]
      tauto
    · simp only [List.mem_cons]

theorem mem_sortSlice (x : Bytes) (l : List Bytes) : x ∈ sortSlice l ↔ x ∈ l := by
  induction l with
  | nil => simp [sortSlice]
  | cons a rest ih =>
    have h : sortSlice (a :: rest) = sortInsert a (sortSlice rest) := rfl
    rw [h, mem_sortInsert, ih, List.mem_cons]

theorem mem_keys_of_Get (db : DB) (key value : Bytes) (h : DB.Get db key = some value) :
    key ∈ db.map Prod.fst := by
  induction db with
  | nil => simp [DB.Get] at h
  | cons entry rest ih =>
    obtain ⟨k, v⟩ := entry
    by_cases hk : k = key
    · simp [hk]
    · simp only [DB.Get, if_neg hk] at h
      simp [ih h]

theorem foldl_Batch_Delete (keys : List Bytes) (b : Batch) :
    keys.foldl Batch.Delete b = b ++ keys.map BatchOp.delete := by
  induction keys generalizing b with
  | nil => simp
  | cons k rest ih => simp [ih, Batch.Delete]

theorem Get_Write_deletes (keys : List Bytes) (db : DB) (key : Bytes) :
    DB.Get (DB.Write db (keys.map BatchOp.delete)) key
      = if key ∈ keys then none else DB.Get db key := by
  induction keys generalizing db with
  | nil => simp [DB.Write_nil]
  | cons k rest ih =>
    rw [List.map_cons, DB.Write_cons, ih]
    by_cases h1 : key ∈ rest
    · simp [h1]
    · by_cases h2 : k = key
      · simp [h1, h2, DB.apply, DB.Get_Delete]
      · have h3 : ¬ key = k := fun h => h2 h.symm
        simp [h1, h2, h3, DB.apply, DB.Get_Delete]

/-- The database after `Clear`: the pending batch replayed, then every key of the bucket
that was in the database deleted, then the position deleted. -/
theorem Clear_eq (c : Arbiters) :
    c.Clear
      = (none,
         { c with
           b := c.b ++ (c.db.keysInBucket BKTArbiters).map BatchOp.delete
                  ++ [BatchOp.delete BKTArbPosition]
           db := DB.Write c.db
                  (c.b ++ (c.db.keysInBucket BKTArbiters).map BatchOp.delete
                    ++ [BatchOp.delete BKTArbPosition]) }) := by
  simp [Arbiters.Clear, foldl_Batch_Delete, Batch.Delete]

theorem Clear_position (c : Arbiters) : c.Clear.2.getCurrentPosition = 0 := by
  rw [Clear_eq]
  cases herr : readError c.readErrors BKTArbPosition <;>
    simp [Arbiters.getCurrentPosition, Arbiters.dbGet, herr, DB.Write_append, DB.Write_cons,
      DB.Write_nil, DB.apply, DB.Get_Delete]

/-- On every store, a `Put` above the position whose digest is in neither the cache nor
the database writes the record itself, and `GetByHeight` of that height, where its read
does not fail, returns the lists as they were passed. -/
theorem GetByHeight_after_Put_new (sha : Sha256) (c : Arbiters) (height : Nat)
    (crcArbiters normalArbiters : List Bytes)
    (hgt : ¬ height ≤ c.getCurrentPosition)
    (hcrc : ∀ k ∈ crcArbiters, k.length = 33)
    (hnormal : ∀ k ∈ normalArbiters, k.length = 33)
    (hone : 1 ≤ crcArbiters.length) (hmax : crcArbiters.length ≤ 255)
    (hcache : c.cache.lookup (sha.Sum256 (getValueBytes
      (sortSlice (crcArbiters ++ normalArbiters)) (crcArbiters.length % 256))) = none)
    (hdb : c.dbGet (sha.Sum256 (getValueBytes
      (sortSlice (crcArbiters ++ normalArbiters)) (crcArbiters.length % 256)))
        = ReadResult.notFound)
    (hread : readError c.readErrors (getIndex height) = none) :
    (c.Put sha height crcArbiters normalArbiters).2.GetByHeight height
      = GetResult.ok crcArbiters normalArbiters := by
  have hkeys : ∀ k ∈ crcArbiters ++ normalArbiters, k.length = 33 := by
    intro k hk
    rcases List.mem_append.mp hk with h | h
    · exact hcrc k h
    · exact hnormal k h
  have hcount : (crcArbiters.length % 256 % 256 + 255) % 256 + 1 = crcArbiters.length := by
    omega
  have hlen := length_getValueBytes (crcArbiters ++ normalArbiters) hkeys
    (crcArbiters.length % 256)
  have hne4 : ¬ (getValueBytes (crcArbiters ++ normalArbiters)
      (crcArbiters.length % 256)).length = 4 := by omega
  rw [Put_new sha c height _ _ hgt hcache hdb, Arbiters.GetByHeight]
  simp only [Arbiters.get, Arbiters.dbGet, hread, DB.Write_append, DB.Write_cons,
    DB.Write_nil, DB.apply, DB.Get_Put, if_true, if_neg (sum_ne_getIndex sha _ height),
    if_neg hne4]
  rw [decode_getValueBytes _ hkeys, hcount, List.take_left, List.drop_left]

/-- C18 (the code departs from it): for every digest, after `Put(1, [keyA], [keyB])` on a
fresh store the further `Put(2, [keyB], [keyA])`, which stores the same two keys with the
same CRC count but with the other key in the CRC position, succeeds, and `GetByHeight(2)`
then returns the lists of height 1, `[keyA]` and `[keyB]`, not the lists passed to that
`Put`. -/
theorem GetByHeight_after_Put_of_permuted_keys (sha : Sha256) :
    ((NewArbiters []).Put sha 1 [keyA] [keyB]).1 = none ∧
    (((NewArbiters []).Put sha 1 [keyA] [keyB]).2.Put sha 2 [keyB] [keyA]).1 = none ∧
    (((NewArbiters []).Put sha 1 [keyA] [keyB]).2.Put sha 2 [keyB] [keyA]).2.GetByHeight 2
      = GetResult.ok [keyA] [keyB] ∧
    GetResult.ok [keyA] [keyB] ≠ GetResult.ok [keyB] [keyA] := by
  have hsort : sortSlice ([keyB] ++ [keyA]) = sortSlice ([keyA] ++ [keyB]) := by decide
  have hkeys : ∀ k ∈ [keyA] ++ [keyB], k.length = 33 := by decide
  have hfresh := Put_fresh sha 1 [keyA] [keyB] (by decide)
  have hpos : ((NewArbiters []).Put sha 1 [keyA] [keyB]).2.getCurrentPosition = 1 := by
    rw [hfresh]
    simp [Arbiters.getCurrentPosition, Arbiters.dbGet, readError, DB.Write, DB.apply,
      DB.Get_Put, sum_ne_position, getIndex_ne_position]
    decide
  have hgt : ¬ 2 ≤ ((NewArbiters []).Put sha 1 [keyA] [keyB]).2.getCurrentPosition := by
    rw [hpos]; decide
  have hcache : ((NewArbiters []).Put sha 1 [keyA] [keyB]).2.cache.lookup
      (sha.Sum256 (getValueBytes (sortSlice ([keyB] ++ [keyA])) ([keyB].length % 256)))
      = some 1 := by
    rw [hfresh, hsort]
    simp [Cache.lookup]
  have hput := Put_cached sha _ 2 [keyB] [keyA] 1 hgt hcache
  have h21 : getIndex 2 ≠ getIndex 1 := by decide
  have h12 : getIndex 1 ≠ getIndex 2 := by decide
  have hptr : bytesToUint32 (uint32toBytes 1) = 1 := by decide
  have hlen := length_getValueBytes ([keyA] ++ [keyB]) hkeys ([keyA].length % 256)
  refine ⟨by rw [hfresh], by rw [hput], ?_, by decide⟩
  rw [hput, Arbiters.GetByHeight, hfresh]
  simp only [Arbiters.get, Arbiters.dbGet, readError, DB.Write_append, DB.Write_cons,
    DB.Write_nil, DB.apply, DB.Get_Put, if_true, length_uint32toBytes, hptr, if_neg h21,
    if_neg (sum_ne_getIndex sha _ 1), if_neg (getIndex_ne_position 1).symm,
    if_neg (getIndex_ne_position 2).symm]
  rw [decode_getValueBytes _ hkeys]
  rfl

/-- C20 (the code departs from it): for every digest, after `Put(1, [keyA], [keyB])` on a
fresh store, `Clear()` succeeds and the position is 0, and re-storing the same arbiter
set with `Put(2, [keyA], [keyB])` succeeds; but reading it back with `GetByHeight(2)`
returns the error of a missing key, whereas the same `Put` on a newly created empty store
followed by `GetByHeight(2)` returns `[keyA]` and `[keyB]`. -/
theorem Put_after_Clear_is_not_read_back (sha : Sha256) :
    ((NewArbiters []).Put sha 1 [keyA] [keyB]).2.Clear.1 = none ∧
    ((NewArbiters []).Put sha 1 [keyA] [keyB]).2.Clear.2.getCurrentPosition = 0 ∧
    (((NewArbiters []).Put sha 1 [keyA] [keyB]).2.Clear.2.Put sha 2 [keyA] [keyB]).1 = none ∧
    (((NewArbiters []).Put sha 1 [keyA] [keyB]).2.Clear.2.Put sha 2 [keyA]
        [keyB]).2.GetByHeight 2 = GetResult.err "leveldb: not found" ∧
    ((NewArbiters []).Put sha 2 [keyA] [keyB]).2.GetByHeight 2 = GetResult.ok [keyA] [keyB] := by
  have hkeys : ∀ k ∈ [keyA] ++ [keyB], k.length = 33 := by decide
  have hfresh := Put_fresh sha 1 [keyA] [keyB] (by decide)
  have hposition := Clear_position ((NewArbiters []).Put sha 1 [keyA] [keyB]).2
  have hgt : ¬ 2 ≤ ((NewArbiters []).Put sha 1 [keyA] [keyB]).2.Clear.2.getCurrentPosition := by
    rw [hposition]; decide
  have hcache : ((NewArbiters []).Put sha 1 [keyA] [keyB]).2.Clear.2.cache.lookup
      (sha.Sum256 (getValueBytes (sortSlice ([keyA] ++ [keyB])) ([keyA].length % 256)))
      = some 1 := by
    rw [Clear_eq, hfresh]
    simp [Cache.lookup]
  have hput := Put_cached sha _ 2 [keyA] [keyB] 1 hgt hcache
  have h21 : getIndex 2 ≠ getIndex 1 := by decide
  have hptr : bytesToUint32 (uint32toBytes 1) = 1 := by decide
  have hget : DB.Get ((NewArbiters []).Put sha 1 [keyA] [keyB]).2.db (getIndex 1)
      = some (getValueBytes ([keyA] ++ [keyB]) ([keyA].length % 256)) := by
    rw [hfresh]
    simp [DB.Write_cons, DB.Write_nil, DB.apply, DB.Get_Put, sum_ne_getIndex]
  have hmem : getIndex 1
      ∈ DB.keysInBucket ((NewArbiters []).Put sha 1 [keyA] [keyB]).2.db BKTArbiters := by
    rw [DB.keysInBucket, mem_sortSlice, List.mem_filter]
    exact ⟨mem_keys_of_Get _ _ _ hget, by decide⟩
  have hfresh2 := GetByHeight_after_Put_new sha (NewArbiters []) 2 [keyA] [keyB] (by decide)
    (by decide) (by decide) (by decide) (by decide) rfl rfl rfl
  refine ⟨by rw [Clear_eq], hposition, by rw [hput], ?_, hfresh2⟩
  have herrs : ((NewArbiters []).Put sha 1 [keyA] [keyB]).2.readErrors = [] := by
    rw [hfresh]
  rw [hput, Arbiters.GetByHeight, Clear_eq]
  simp only [Arbiters.get, Arbiters.dbGet, herrs, readError, DB.Write_append, DB.Write_cons,
    DB.Write_nil, DB.apply, DB.Get_Put, DB.Get_Delete, Get_Write_deletes, if_true,
    length_uint32toBytes, hptr, if_neg h21, hmem, if_neg (getIndex_ne_position 1).symm,
    if_neg (getIndex_ne_position 2).symm]

end Store
